import Mathlib

set_option maxHeartbeats 1000000
set_option maxRecDepth 4000
set_option linter.unusedVariables false

/- Shallow embedding of `prow/plugins/releasenote/releasenote.go`.

   Go strings are modelled as lists of characters (`Str`).  The plugin only
   manipulates ASCII text, so Go's Unicode-aware `strings.ToLower`,
   `strings.TrimSpace` and RE2's case folding are modelled on the ASCII
   fragment.  Regular expressions are hand-translated into explicit
   backtracking matchers with RE2's leftmost-first ("Perl") preference
   semantics, which is what Go's `regexp` package implements for
   `FindStringSubmatch`/`MatchString`. -/

abbrev Str := List Char

/-- Go `unicode.IsSpace` on the ASCII range, as used by `strings.TrimSpace`. -/
def isGoSpace (c : Char) : Bool :=
  c == ' ' || c == '\t' || c == '\n' || c == '\x0b' || c == '\x0c' || c == '\r'

/-- RE2 character class `\s`, i.e. `[\t\n\f\r ]`. -/
def isRe2Space (c : Char) : Bool :=
  c == '\t' || c == '\n' || c == '\x0c' || c == '\r' || c == ' '

/-- Go `strings.TrimSpace` (ASCII fragment): strip whitespace from both ends. -/
def trimSpace (s : Str) : Str :=
  ((s.dropWhile isGoSpace).reverse.dropWhile isGoSpace).reverse

/-- ASCII case folding of a single character (`A`-`Z` to `a`-`z`). -/
def lowerChar (c : Char) : Char :=
  if 65 ≤ c.toNat ∧ c.toNat ≤ 90 then Char.ofNat (c.toNat + 32) else c

/-- Go `strings.ToLower` (ASCII fragment). -/
def toLowerStr (s : Str) : Str := s.map lowerChar

/-- Go `strings.Contains`: `sub` occurs as a contiguous substring of `s`. -/
def containsSub : Str → Str → Bool
  | [], sub => sub.isPrefixOf []
  | c :: rest, sub => sub.isPrefixOf (c :: rest) || containsSub rest sub

/-- Go `strings.Split(s, "\n")`. -/
def splitLines : Str → List Str
  | [] => [[]]
  | c :: rest =>
    if c = '\n' then [] :: splitLines rest
    else
      match splitLines rest with
      | [] => [[c]]
      | l :: ls => (c :: l) :: ls

/-- `strconv.Itoa` for the (non-negative) numbers the plugin prints. -/
def natStr (n : Nat) : Str := (Nat.repr n).data

/-- Go `strings.Join`. -/
def joinSep (sep : Str) : List Str → Str
  | [] => []
  | [x] => x
  | x :: y :: rest => x ++ sep ++ joinSep sep (y :: rest)

/- ── label-name and template constants (source lines 33-57) ──────────── -/

def deprecatedReleaseNoteLabelNeeded : Str := ("release-note-label-needed").data

def releaseNoteLabelNeeded : Str := ("do-not-merge/release-note-label-needed").data

def releaseNote : Str := ("release-note").data

def releaseNoteNone : Str := ("release-note-none").data

def releaseNoteActionRequired : Str := ("release-note-action-required").data

def noReleaseNoteComment : Str := ("none").data

def actionRequiredNote : Str := ("action required").data

/-- Go `%q` on the label names used here (no characters needing escapes). -/
def goQuote (s : Str) : Str := '"' :: s ++ ['"']

/-- `releaseNoteSuffix`: `fmt.Sprintf(releaseNoteSuffixFormat, releaseNote,
releaseNoteActionRequired, releaseNoteNone)`. -/
def releaseNoteSuffix : Str :=
  ("One of the following labels is required ").data ++ goQuote releaseNote
    ++ (", ").data ++ goQuote releaseNoteActionRequired
    ++ (", or ").data ++ goQuote releaseNoteNone
    ++ (".\nPlease see: https://github.com/kubernetes/community/blob/master/contributors/devel/pull-requests.md#write-release-notes-if-needed.").data

/-- `releaseNoteBody`: `fmt.Sprintf(releaseNoteFormat, releaseNoteLabelNeeded)`. -/
def releaseNoteBody : Str :=
  ("Adding ").data ++ releaseNoteLabelNeeded
    ++ (" because the release note process has not been followed.").data

/-- `deprecatedReleaseNoteBody`: same format applied to the deprecated label. -/
def deprecatedReleaseNoteBody : Str :=
  ("Adding ").data ++ deprecatedReleaseNoteLabelNeeded
    ++ (" because the release note process has not been followed.").data

/-- `parentReleaseNoteBody`: `fmt.Sprintf(parentReleaseNoteFormat, releaseNote,
releaseNoteActionRequired)`. -/
def parentReleaseNoteBody : Str :=
  ("All \x27parent\x27 PRs of a cherry-pick PR must have one of the ").data
    ++ goQuote releaseNote ++ (" or ").data ++ goQuote releaseNoteActionRequired
    ++ (" labels, or this PR must follow the standard/parent release note labeling requirement.").data

/-- `allRNLabels` (source lines 62-68), in source order. -/
def allRNLabels : List Str :=
  [releaseNoteNone, releaseNoteActionRequired, deprecatedReleaseNoteLabelNeeded,
   releaseNoteLabelNeeded, releaseNote]

/- ── the note-block regular expression (source line 59) ──────────────────
   noteMatcherRE = (?s)(?:Release note\*\*:\s*(?:<!--[^<>]*-->\s*)?```(?:release-note)?|```release-note)(.+?)```
   Translated into an explicit backtracking matcher.  Greedy `\s*` and the
   greedy digit/character runs below are translated as maximal munch where the
   following literal cannot overlap the run; the places where RE2 would
   actually backtrack (the `[^<>]*-->` tail, the optional groups, and the lazy
   `(.+?)`) are translated with explicit backtracking in preference order. -/

def ticks : Str := ("```").data

def relNoteTag : Str := ("release-note").data

def relNoteLabelMark : Str := ("Release note**:").data

def commentOpen : Str := ("<!--").data

def commentClose : Str := ("-->").data

/-- Match a literal, returning the rest of the input. -/
def lit (p s : Str) : Option Str :=
  if p.isPrefixOf s then some (s.drop p.length) else none

/-- Maximal munch for `\s*` (sound here: every literal that follows `\s*` in
the pattern starts with a non-whitespace character). -/
def munchSpaces (s : Str) : Str := s.dropWhile isRe2Space

/-- The lazy `(.+?)` followed by the closing fence: after at least one
character, stop at the earliest following literal triple backtick.  Returns
the captured text and the rest after the fence. -/
def lazyCaptureAux : Str → Str → Option (Str × Str)
  | acc, s =>
    if ticks.isPrefixOf s then some (acc.reverse, s.drop 3)
    else
      match s with
      | [] => none
      | c :: rest => lazyCaptureAux (c :: acc) rest

def capPlusLazy (s : Str) : Option (Str × Str) :=
  match s with
  | [] => none
  | c :: rest => lazyCaptureAux [c] rest

/-- After the opening fence of alternative A: greedy optional
`(?:release-note)?`, then the lazy capture and the closing fence (with
backtracking from the tagged to the untagged reading). -/
def matchTickBody (s : Str) : Option Str :=
  match (match lit relNoteTag s with
         | some u => (capPlusLazy u).map Prod.fst
         | none => none) with
  | some cap => some cap
  | none => (capPlusLazy s).map Prod.fst

/-- Continuation after `[^<>]*` has consumed `k` characters: `-->`, `\s*`,
the opening fence, then the body. -/
def afterCommentCont (u : Str) (k : Nat) : Option Str :=
  match lit commentClose (u.drop k) with
  | none => none
  | some v =>
    match lit ticks (munchSpaces v) with
    | none => none
    | some w => matchTickBody w

/-- Greedy `[^<>]*` with backtracking: try the longest run first. -/
def tryKs (u : Str) : Nat → Option Str
  | 0 => afterCommentCont u 0
  | k + 1 =>
    match afterCommentCont u (k + 1) with
    | some r => some r
    | none => tryKs u k

/-- Alternative A:
`Release note\*\*:\s*(?:<!--[^<>]*-->\s*)?\x60\x60\x60(?:release-note)?(.+?)\x60\x60\x60`. -/
def matchAltA (s : Str) : Option Str :=
  match lit relNoteLabelMark s with
  | none => none
  | some u =>
    let u2 := munchSpaces u
    match lit commentOpen u2 with
    | some v =>
      let maxRun := (v.takeWhile (fun c => !(c == '<') && !(c == '>'))).length
      match tryKs v maxRun with
      | some cap => some cap
      | none =>
        match lit ticks u2 with
        | some w => matchTickBody w
        | none => none
    | none =>
      match lit ticks u2 with
      | some w => matchTickBody w
      | none => none

/-- Alternative B: `\x60\x60\x60release-note(.+?)\x60\x60\x60`. -/
def matchAltB (s : Str) : Option Str :=
  match lit (ticks ++ relNoteTag) s with
  | some u => (capPlusLazy u).map Prod.fst
  | none => none

/-- A match of the whole pattern starting at this position (alternative A
preferred, as RE2 prefers the left alternative). -/
def matchAt (s : Str) : Option Str :=
  match matchAltA s with
  | some cap => some cap
  | none => matchAltB s

/-- Leftmost match: scan start positions left to right
(`FindStringSubmatch`). -/
def findNoteMatch : Str → Option Str
  | [] => matchAt []
  | c :: rest =>
    match matchAt (c :: rest) with
    | some cap => some cap
    | none => findNoteMatch rest

/-- `getReleaseNote` (source lines 312-318): the release note from a PR body,
empty string when the pattern does not match. -/
def getReleaseNote (body : Str) : Str :=
  match findNoteMatch body with
  | none => []
  | some cap => trimSpace cap

/-- The classification chain of `determineReleaseNoteLabel` (source lines
295-308), factored over the extracted note text. -/
def classifyNote (note : Str) : Str :=
  if toLowerStr (trimSpace note) = [] then releaseNoteLabelNeeded
  else if toLowerStr (trimSpace note) = noReleaseNoteComment then releaseNoteNone
  else if containsSub (toLowerStr (trimSpace note)) actionRequiredNote then
    releaseNoteActionRequired
  else releaseNote

/-- `determineReleaseNoteLabel` (source lines 295-308). -/
def determineReleaseNoteLabel (body : Str) : Str :=
  classifyNote (getReleaseNote body)

/- ── C1 ──────────────────────────────────────────────────────────────── -/

def exampleNoneUpper : Str := ("NONE").data

def exampleActionText : Str := ("this requires Action Required steps").data

def exampleStandardText : Str := ("Added a new flag").data

/-- C1: the label classifier is a total pure function on note text: after
trimming whitespace and lowercasing, the empty string maps to the needed
label, the exact word "none" (case-insensitively) maps to the none label,
remaining text containing the substring "action required" (case-insensitively)
maps to the action-required label, and any other non-empty text maps to the
standard release-note label; every input maps to exactly one of the four
outcomes, and the four documented examples evaluate as stated. -/
theorem classifyNote_spec :
    (∀ note : Str, toLowerStr (trimSpace note) = [] →
      classifyNote note = releaseNoteLabelNeeded)
    ∧ (∀ note : Str, toLowerStr (trimSpace note) = noReleaseNoteComment →
      classifyNote note = releaseNoteNone)
    ∧ (∀ note : Str, toLowerStr (trimSpace note) ≠ [] →
      toLowerStr (trimSpace note) ≠ noReleaseNoteComment →
      containsSub (toLowerStr (trimSpace note)) actionRequiredNote = true →
      classifyNote note = releaseNoteActionRequired)
    ∧ (∀ note : Str, toLowerStr (trimSpace note) ≠ [] →
      toLowerStr (trimSpace note) ≠ noReleaseNoteComment →
      containsSub (toLowerStr (trimSpace note)) actionRequiredNote = false →
      classifyNote note = releaseNote)
    ∧ (∀ note : Str, classifyNote note = releaseNoteLabelNeeded
        ∨ classifyNote note = releaseNoteNone
        ∨ classifyNote note = releaseNoteActionRequired
        ∨ classifyNote note = releaseNote)
    ∧ (∀ body : Str, determineReleaseNoteLabel body = classifyNote (getReleaseNote body))
    ∧ classifyNote [] = releaseNoteLabelNeeded
    ∧ classifyNote exampleNoneUpper = releaseNoteNone
    ∧ classifyNote exampleActionText = releaseNoteActionRequired
    ∧ classifyNote exampleStandardText = releaseNote := by
  refine ⟨?_, ?_, ?_, ?_, ?_, ?_, ?_, ?_, ?_, ?_⟩
  · intro note h
    simp only [classifyNote, h]
    decide
  · intro note h
    simp only [classifyNote, h]
    decide
  · intro note h1 h2 h3
    simp only [classifyNote, if_neg h1, if_neg h2, h3]
    simp
  · intro note h1 h2 h3
    simp only [classifyNote, if_neg h1, if_neg h2, h3]
    simp
  · intro note
    unfold classifyNote
    split
    · exact Or.inl rfl
    · split
      · exact Or.inr (Or.inl rfl)
      · split
        · exact Or.inr (Or.inr (Or.inl rfl))
        · exact Or.inr (Or.inr (Or.inr rfl))
  · intro body
    rfl
  · decide
  · decide
  · decide
  · decide

/-- Witness for C1 at concrete inputs. -/
theorem classifyNote_spec_witness :
    classifyNote (("  none ").data) = releaseNoteNone
    ∧ classifyNote (("ACTION REQUIRED: restart").data) = releaseNoteActionRequired := by
  constructor
  · exact classifyNote_spec.2.1 (("  none ").data) (by decide)
  · exact classifyNote_spec.2.2.1 (("ACTION REQUIRED: restart").data)
      (by decide) (by decide) (by decide)

/- ── C2 ──────────────────────────────────────────────────────────────── -/

lemma findNoteMatch_eq_none (s : Str) (h : ∀ i, matchAt (s.drop i) = none) :
    findNoteMatch s = none := by
  induction s with
  | nil => simpa using h 0
  | cons c rest ih =>
    have h0 : matchAt (c :: rest) = none := by simpa using h 0
    simp only [findNoteMatch, h0]
    exact ih (fun i => by simpa [List.drop_succ_cons] using h (i + 1))

lemma findNoteMatch_eq_some (s : Str) (i : Nat) (cap : Str)
    (h1 : matchAt (s.drop i) = some cap)
    (h2 : ∀ j < i, matchAt (s.drop j) = none) :
    findNoteMatch s = some cap := by
  induction s generalizing i with
  | nil =>
    cases i with
    | zero => simpa [findNoteMatch] using h1
    | succ k =>
      have hc : matchAt ([] : Str) = none := by simpa using h2 0 (Nat.succ_pos k)
      rw [List.drop_nil] at h1
      rw [hc] at h1
      exact absurd h1 (by simp)
  | cons c rest ih =>
    cases i with
    | zero =>
      simp only [List.drop_zero] at h1
      simp only [findNoteMatch, h1]
    | succ k =>
      have hc : matchAt (c :: rest) = none := by simpa using h2 0 (Nat.succ_pos k)
      simp only [findNoteMatch, hc]
      refine ih k (by simpa [List.drop_succ_cons] using h1) ?_
      intro j hj
      simpa [List.drop_succ_cons] using h2 (j + 1) (Nat.succ_lt_succ hj)

/-- C2: for every pull-request body, the note extractor is total and returns
the trimmed contents of the leftmost release-note fenced block — at the
earliest position where either the labelled-fence form (alternative A,
preferred) or the tagged-fence form (alternative B) matches — and returns the
empty string when no position admits a match; later blocks are ignored. -/
theorem getReleaseNote_first_block (body : Str) :
    ((∀ i, matchAt (body.drop i) = none) → getReleaseNote body = [])
    ∧ (∀ i cap, matchAt (body.drop i) = some cap →
        (∀ j < i, matchAt (body.drop j) = none) →
        getReleaseNote body = trimSpace cap)
    ∧ (∀ s cap2, matchAt s = some cap2 →
        matchAltA s = some cap2 ∨ (matchAltA s = none ∧ matchAltB s = some cap2)) := by
  refine ⟨?_, ?_, ?_⟩
  · intro h
    simp only [getReleaseNote, findNoteMatch_eq_none body h]
  · intro i cap h1 h2
    simp only [getReleaseNote, findNoteMatch_eq_some body i cap h1 h2]
  · intro s cap2 h
    unfold matchAt at h
    cases hA : matchAltA s with
    | some capA =>
      rw [hA] at h
      simp only at h
      exact Or.inl h
    | none =>
      rw [hA] at h
      exact Or.inr ⟨rfl, h⟩

def c2Body : Str :=
  ("Intro\nRelease note**:\n```\nFoo\n```\nmore\n```release-note\nBar\n```").data

def c2Cap : Str := ("\nFoo\n").data

/-- Witness for C2: on a body with two release-note blocks, the extractor
returns the trimmed contents of the first one. -/
theorem getReleaseNote_first_block_witness : getReleaseNote c2Body = ("Foo").data := by
  have h := (getReleaseNote_first_block c2Body).2.1 6 c2Cap (by decide) (by decide)
  rw [h]
  decide

/- ── command recognizers (source lines 70-72) ─────────────────────────────
   releaseNoteRe               = (?mi)^/release-note\s*$
   releaseNoteNoneRe           = (?mi)^/release-note-none\s*$
   releaseNoteActionRequiredRe = (?mi)^/release-note-action-required\s*$
   `MatchString` of `(?mi)^CMD\s*$` holds iff some line of the text (split on
   newlines) consists, after ASCII case folding, of CMD followed only by `\s`
   characters: `^`/`$` with `(?m)` anchor at line boundaries, and although the
   greedy `\s*` may swallow newlines, any such match also yields a
   single-line match, so existence coincides. -/

def releaseNoteCommand : Str := ("/release-note").data

def releaseNoteNoneCommand : Str := ("/release-note-none").data

def releaseNoteActionRequiredCommand : Str := ("/release-note-action-required").data

/-- One line matched against `^CMD\s*$` under `(?i)`. -/
def isCommandBodyLine (cmd line : Str) : Bool :=
  cmd.isPrefixOf (toLowerStr line)
    && ((toLowerStr line).drop cmd.length).all isRe2Space

/-- `re.MatchString(body)` for the `(?mi)^CMD\s*$` patterns. -/
def matchCommand (cmd body : Str) : Bool :=
  (splitLines body).any (isCommandBodyLine cmd)

/- ── cherry-pick reference parsing (source lines 60, 376-392) ─────────────
   cpRe = Cherry pick of #([[:digit:]]+) on release-([[:digit:]]+\.[[:digit:]]+).
   No `(?i)` flag and no anchors: case-SENSITIVE, and matching anywhere within
   a line.  The final `.` is an unescaped dot (any character).  The greedy
   digit runs are maximal munch (each is followed by a non-digit literal);
   the trailing dot backtracks into the minor-version digit run when the run
   reaches the end of the line. -/

def cpLit1 : Str := ("Cherry pick of #").data

def cpLit2 : Str := (" on release-").data

/-- Match `cpRe` starting at this position; returns capture group 1 (the
parent number's digits). -/
def matchCpAt (s : Str) : Option Str :=
  match lit cpLit1 s with
  | none => none
  | some u =>
    let d1 := u.takeWhile Char.isDigit
    if d1 = [] then none
    else
      match lit cpLit2 (u.drop d1.length) with
      | none => none
      | some w =>
        let d2 := w.takeWhile Char.isDigit
        if d2 = [] then none
        else
          match w.drop d2.length with
          | '.' :: y =>
            let d3 := y.takeWhile Char.isDigit
            if d3 = [] then none
            else if d3.length < y.length then some d1
            else if 2 ≤ d3.length then some d1
            else none
          | _ => none

/-- Leftmost match of `cpRe` within one line (`FindStringSubmatch`). -/
def cpFindCapture : Str → Option Str
  | [] => none
  | c :: rest =>
    match matchCpAt (c :: rest) with
    | some cap => some cap
    | none => cpFindCapture rest

/-- Numeric value of a digit string. -/
def digitsVal (d : Str) : Nat :=
  d.foldl (fun acc c => acc * 10 + (c.toNat - 48)) 0

/-- `strconv.Atoi` on the digits-only captures produced by `cpRe` (64-bit
`int`): the only possible failure is range overflow. -/
def goAtoi (d : Str) : Option Nat :=
  if d.all Char.isDigit ∧ d ≠ [] then
    if digitsVal d ≤ 9223372036854775807 then some (digitsVal d) else none
  else none

/-- The loop of `getCherrypickParentPRNums` (source lines 376-392): per line,
skip lines without a match and lines whose captured number fails to parse. -/
def cherrypickLoop : List Str → List Nat
  | [] => []
  | line :: rest =>
    match cpFindCapture line with
    | none => cherrypickLoop rest
    | some cap =>
      match goAtoi cap with
      | none => cherrypickLoop rest
      | some n => n :: cherrypickLoop rest

/-- `getCherrypickParentPRNums` (source lines 376-392). -/
def getCherrypickParentPRNums (body : Str) : List Nat :=
  cherrypickLoop (splitLines body)

/- ── C7 ──────────────────────────────────────────────────────────────── -/

/-- C7 counterexample: cherry-pick reference recognition is NOT
case-insensitive — the same reference line in lowercase is not collected,
contradicting the claim that matching is case-insensitive. -/
theorem cherrypick_not_case_insensitive :
    getCherrypickParentPRNums (("Cherry pick of #123 on release-1.4.").data) = [123]
    ∧ getCherrypickParentPRNums (("cherry pick of #123 on release-1.4.").data) = [] := by
  constructor
  · decide
  · decide

lemma cherrypickLoop_eq_filterMap (ls : List Str) :
    cherrypickLoop ls = ls.filterMap (fun line => (cpFindCapture line).bind goAtoi) := by
  induction ls with
  | nil => rfl
  | cons line rest ih =>
    simp only [cherrypickLoop, List.filterMap_cons]
    cases hc : cpFindCapture line with
    | none => simpa [hc] using ih
    | some cap =>
      cases ha : goAtoi cap with
      | none => simpa [hc, ha] using ih
      | some n => simpa [hc, ha] using ih

/-- C7 (amended): the comment-command recognizers match line-anchored and
case-insensitively (a body matches iff some line, after case folding, is the
command followed only by whitespace), while cherry-pick reference recognition
scans the body line by line CASE-SENSITIVELY, collecting at most one parent
number per line, in body order with duplicates preserved, and silently
skipping a line whose captured number fails to parse as a 64-bit integer. -/
theorem commandAndCherrypickParse_spec :
    (∀ body : Str, getCherrypickParentPRNums body
        = (splitLines body).filterMap (fun line => (cpFindCapture line).bind goAtoi))
    ∧ (∀ cmd body : Str, matchCommand cmd body = true ↔
        ∃ line ∈ splitLines body, ∃ ws : Str,
          toLowerStr line = cmd ++ ws ∧ ∀ c ∈ ws, isRe2Space c = true)
    ∧ getCherrypickParentPRNums
        (("Cherry pick of #12 on release-1.4.\nx\nCherry pick of #7 on release-1.5.\nCherry pick of #12 on release-1.6.").data)
        = [12, 7, 12]
    ∧ getCherrypickParentPRNums
        (("Cherry pick of #99999999999999999999 on release-1.4.").data) = []
    ∧ matchCommand releaseNoteNoneCommand (("x\n/Release-Note-None  \ny").data) = true
    ∧ matchCommand releaseNoteNoneCommand (("a /release-note-none").data) = false := by
  refine ⟨?_, ?_, by decide, by decide, by decide, by decide⟩
  · intro body
    exact cherrypickLoop_eq_filterMap (splitLines body)
  · intro cmd body
    constructor
    · intro h
      obtain ⟨line, hline, hcl⟩ := List.any_eq_true.mp h
      rw [isCommandBodyLine, Bool.and_eq_true] at hcl
      obtain ⟨hpre, hall⟩ := hcl
      obtain ⟨ws, hws⟩ := List.isPrefixOf_iff_prefix.mp hpre
      refine ⟨line, hline, (toLowerStr line).drop cmd.length, ?_, ?_⟩
      · conv_lhs => rw [← hws]
        rw [← hws, List.drop_left]
      · intro c hc
        exact List.all_eq_true.mp hall c hc
    · rintro ⟨line, hline, ws, hws, hall⟩
      refine List.any_eq_true.mpr ⟨line, hline, ?_⟩
      rw [isCommandBodyLine, Bool.and_eq_true]
      constructor
      · exact List.isPrefixOf_iff_prefix.mpr ⟨ws, hws.symm⟩
      · rw [hws, List.drop_left]
        exact List.all_eq_true.mpr hall

/- ── data model for the stateful handlers ────────────────────────────────
   The external GitHub service is modelled as a deterministic response
   environment `GC` (one field per operation of the `githubClient` interface,
   source lines 80-89); the handlers return, alongside their Go result, the
   trace of calls they issued, recorded as `Call` values. -/

abbrev GErr := Str

deriving instance DecidableEq for Except

structure GLabel where
  name : Str
deriving DecidableEq

structure IssueComment where
  userLogin : Str
  body : Str
deriving DecidableEq

inductive Call where
  | isMember (org user : Str)
  | createComment (org repo : Str) (number : Nat) (body : Str)
  | addLabel (org repo : Str) (number : Nat) (label : Str)
  | removeLabel (org repo : Str) (number : Nat) (label : Str)
  | getIssueLabels (org repo : Str) (number : Nat)
  | listIssueComments (org repo : Str) (number : Nat)
  | deleteStale (org repo : Str) (number : Nat)
      (supplied : Option (List IssueComment)) (effective : List IssueComment)
      (botName : Str)
  | botName
deriving DecidableEq

structure GC where
  isMember : Str → Str → Except GErr Bool
  createComment : Str → Str → Nat → Str → Option GErr
  addLabel : Str → Str → Nat → Str → Option GErr
  removeLabel : Str → Str → Nat → Str → Option GErr
  getIssueLabels : Str → Str → Nat → Except GErr (List GLabel)
  listIssueComments : Str → Str → Nat → Except GErr (List IssueComment)
  deleteStale : Str → Str → Nat → List IssueComment → Option GErr
  botName : Except GErr Str

def optToExcept : Option GErr → Except GErr Unit
  | none => Except.ok ()
  | some e => Except.error e

/-- `github.PullRequestEvent`, restricted to the fields the plugin reads. -/
structure PullRequestEvent where
  action : Str
  number : Nat
  body : Str
  userLogin : Str
  baseRef : Str
  repoOwner : Str
  repoName : Str
deriving DecidableEq

/-- `github.IssueCommentEvent`, restricted to the fields the plugin reads. -/
structure IssueCommentEvent where
  isPR : Bool
  action : Str
  issueNumber : Nat
  issueBody : Str
  issueUserLogin : Str
  issueLabels : List GLabel
  commentBody : Str
  commentUserLogin : Str
  repoOwner : Str
  repoName : Str
deriving DecidableEq

def prActionOpened : Str := ("opened").data

def prActionEdited : Str := ("edited").data

def issueCommentActionCreated : Str := ("created").data

def masterBranch : Str := ("master").data

/-- `hasLabel` (source lines 394-402): case-insensitive membership. -/
def hasLabel (label : Str) (issueLabels : List GLabel) : Bool :=
  issueLabels.any (fun l => toLowerStr l.name == toLowerStr label)

/-- Modelled from the spec: `plugins.FormatResponse` is declared outside
`src/`; per §6 the advisory templates are verbatim contracts that must appear
in the posted comment, so the formatter is modelled as the addressee, the
message and the reason joined by fixed separators, each preserved verbatim. -/
def formatResponse (dest message reason : Str) : Str :=
  '@' :: dest ++ (": ").data ++ message ++ ("\n\n<details>\n\n").data
    ++ reason ++ ("\n</details>").data

/-- Modelled from the spec: `plugins.FormatICResponse` is declared outside
`src/`; it renders a reply to an issue comment addressing the comment's
author, with the response text preserved verbatim. -/
def formatICResponse (user resp : Str) : Str :=
  '@' :: user ++ (": ").data ++ resp

/-- Modelled from the spec: `github.Issue.IsAuthor` is declared outside
`src/`; §4.5 step 3 checks that "the commenter is the PR author"; logins are
compared case-insensitively, as GitHub logins are. -/
def isAuthor (issueUserLogin commenterLogin : Str) : Bool :=
  toLowerStr issueUserLogin == toLowerStr commenterLogin

/-- The error-collecting removal loop of `removeOtherLabels` (source lines
162-175): every qualifying removal is attempted; errors are collected in
order.  Returns the collected errors and the labels whose removal was
attempted. -/
def removeOtherLabelsLoop (remover : Str → Option GErr) (label : Str)
    (currentLabels : List GLabel) : List Str → List GErr × List Str
  | [] => ([], [])
  | elem :: rest =>
    if elem != label && hasLabel elem currentLabels then
      let r := removeOtherLabelsLoop remover label currentLabels rest
      match remover elem with
      | some e => (e :: r.1, elem :: r.2)
      | none => (r.1, elem :: r.2)
    else removeOtherLabelsLoop remover label currentLabels rest

/-- `fmt.Errorf("encountered %d errors setting labels: %v", len(errs), errs)`
(source line 172): `%v` renders a slice of errors as the messages joined by
single spaces inside brackets. -/
def combinedRemovalError (errs : List GErr) : GErr :=
  ("encountered ").data ++ natStr errs.length
    ++ (" errors setting labels: [").data ++ joinSep ([' ']) errs ++ ("]").data

/-- `removeOtherLabels` (source lines 162-175). -/
def removeOtherLabels (remover : Str → Option GErr) (label : Str)
    (labelSet : List Str) (currentLabels : List GLabel) : Option GErr × List Str :=
  let r := removeOtherLabelsLoop remover label currentLabels labelSet
  (if r.1.length > 0 then some (combinedRemovalError r.1) else none, r.2)

/-- `containsNoneCommand` (source lines 268-275). -/
def containsNoneCommand (comments : List IssueComment) : Bool :=
  comments.any (fun c => matchCommand releaseNoteNoneCommand c.body)

/-- `releaseNoteAlreadyAdded` (source lines 320-324). -/
def releaseNoteAlreadyAdded (prLabels : List GLabel) : Bool :=
  hasLabel releaseNote prLabels || hasLabel releaseNoteActionRequired prLabels
    || hasLabel releaseNoteNone prLabels

/-- `ensureNoRelNoteNeededLabel` (source lines 277-291): removal failures are
only logged, so the model returns just the trace of attempted removals. -/
def ensureNoRelNoteNeededLabel (gc : GC) (pr : PullRequestEvent)
    (prLabels : List GLabel) : List Call :=
  (if hasLabel releaseNoteLabelNeeded prLabels then
    [Call.removeLabel pr.repoOwner pr.repoName pr.number releaseNoteLabelNeeded]
  else [])
    ++ (if hasLabel deprecatedReleaseNoteLabelNeeded prLabels then
      [Call.removeLabel pr.repoOwner pr.repoName pr.number deprecatedReleaseNoteLabelNeeded]
    else [])

/-- The noteless-parent collection of `prMustFollowRelNoteProcess` (source
lines 340-352): parents whose label fetch failed are skipped; a successfully
checked parent is noteless when it carries neither the release-note nor the
action-required label; entries are rendered as `#<number>`. -/
def notelessParentsOf (gc : GC) (org repo : Str) (parents : List Nat) : List Str :=
  parents.filterMap (fun parent =>
    match gc.getIssueLabels org repo parent with
    | Except.error _ => none
    | Except.ok parentLabels =>
      if !hasLabel releaseNote parentLabels
          && !hasLabel releaseNoteActionRequired parentLabels then
        some ('#' :: natStr parent)
      else none)

/-- The same collection, as parent numbers. -/
def notelessParentNums (gc : GC) (org repo : Str) (parents : List Nat) : List Nat :=
  parents.filterMap (fun parent =>
    match gc.getIssueLabels org repo parent with
    | Except.error _ => none
    | Except.ok parentLabels =>
      if !hasLabel releaseNote parentLabels
          && !hasLabel releaseNoteActionRequired parentLabels then
        some parent
      else none)

/-- The comment suffix built at source lines 363-368. -/
def parentListSuffix (notelessParents : List Str) : Str :=
  ("The following parent PRs have neither the ").data ++ goQuote releaseNote
    ++ (" nor the ").data ++ goQuote releaseNoteActionRequired
    ++ (" labels: ").data ++ joinSep ((", ").data) notelessParents ++ (".").data

/-- `prMustFollowRelNoteProcess` (source lines 326-374). -/
def prMustFollowRelNoteProcess (gc : GC) (pr : PullRequestEvent)
    (prLabels : List GLabel) (comment : Bool) : Bool × List Call :=
  if pr.baseRef = masterBranch then (true, [])
  else
    let parents := getCherrypickParentPRNums pr.body
    if parents = [] then (true, [])
    else
      let org := pr.repoOwner
      let repo := pr.repoName
      let fetchTrace := parents.map (fun p => Call.getIssueLabels org repo p)
      let noteless := notelessParentsOf gc org repo parents
      if noteless = [] then (false, fetchTrace)
      else
        if comment && !hasLabel releaseNoteLabelNeeded prLabels then
          let c := formatResponse pr.userLogin parentReleaseNoteBody
            (parentListSuffix noteless)
          (true, fetchTrace ++ [Call.createComment org repo pr.number c])
        else (true, fetchTrace)

/-- The `isStale` closure passed to `DeleteStaleComments` (source lines
259-264). -/
def staleFn (botName : Str) (c : IssueComment) : Bool :=
  c.userLogin == botName
    && (containsSub c.body releaseNoteBody
      || containsSub c.body parentReleaseNoteBody
      || containsSub c.body deprecatedReleaseNoteBody)

/-- Modelled from the spec: the tracker client's `DeleteStaleComments` is only
declared in `src/` (interface, source line 87); per §4.5 step 6, deletion
operates on "the comment set already fetched in step 3 (or freshly fetched if
step 3 did not run)", so when handed no comment set (Go `nil`) the client
lists the issue's comments itself, then deletes every comment of the set for
which the predicate holds.  The predicate the core supplies is always
`staleFn bot`, so the recorded action carries `bot`. -/
def deleteStaleCommentsClient (gc : GC) (org repo : Str) (number : Nat)
    (comments : Option (List IssueComment)) (botName : Str) :
    Except GErr Unit × List Call :=
  match comments with
  | some cs =>
    (optToExcept (gc.deleteStale org repo number cs),
      [Call.deleteStale org repo number (some cs) cs botName])
  | none =>
    match gc.listIssueComments org repo number with
    | Except.error e => (Except.error e, [Call.listIssueComments org repo number])
    | Except.ok cs =>
      (optToExcept (gc.deleteStale org repo number cs),
        [Call.listIssueComments org repo number,
          Call.deleteStale org repo number none cs botName])

/-- `clearStaleComments` (source lines 244-266). -/
def clearStaleComments (gc : GC) (pr : PullRequestEvent) (prLabels : List GLabel)
    (comments : Option (List IssueComment)) : Except GErr Unit × List Call :=
  let mf := prMustFollowRelNoteProcess gc pr prLabels false
  if mf.1 && !releaseNoteAlreadyAdded prLabels then (Except.ok (), mf.2)
  else
    match gc.botName with
    | Except.error e => (Except.error e, mf.2 ++ [Call.botName])
    | Except.ok bot =>
      let d := deleteStaleCommentsClient gc pr.repoOwner pr.repoName pr.number comments bot
      (d.1, mf.2 ++ [Call.botName] ++ d.2)

/-- The common tail of `handlePR` (source lines 210-241): advisory comment or
needed-label cleanup, label addition, removal of the other family labels
(aggregate error logged, not returned), then stale-comment cleanup. -/
def finishPR (gc : GC) (pr : PullRequestEvent) (prLabels : List GLabel)
    (labelToAdd : Str) (comments : Option (List IssueComment)) :
    Except GErr Unit × List Call :=
  let org := pr.repoOwner
  let repo := pr.repoName
  let tA : List Call :=
    if labelToAdd = releaseNoteLabelNeeded then
      if !hasLabel releaseNoteLabelNeeded prLabels then
        [Call.createComment org repo pr.number
          (formatResponse pr.userLogin releaseNoteBody releaseNoteSuffix)]
      else []
    else ensureNoRelNoteNeededLabel gc pr prLabels
  if hasLabel labelToAdd prLabels then
    let rm := removeOtherLabels (fun l => gc.removeLabel org repo pr.number l)
      labelToAdd allRNLabels prLabels
    let cs := clearStaleComments gc pr prLabels comments
    (cs.1, tA ++ rm.2.map (Call.removeLabel org repo pr.number) ++ cs.2)
  else
    match gc.addLabel org repo pr.number labelToAdd with
    | some e => (Except.error e, tA ++ [Call.addLabel org repo pr.number labelToAdd])
    | none =>
      let rm := removeOtherLabels (fun l => gc.removeLabel org repo pr.number l)
        labelToAdd allRNLabels prLabels
      let cs := clearStaleComments gc pr prLabels comments
      (cs.1, tA ++ [Call.addLabel org repo pr.number labelToAdd]
        ++ rm.2.map (Call.removeLabel org repo pr.number) ++ cs.2)

/-- `handlePR` (source lines 181-242). -/
def handlePR (gc : GC) (pr : PullRequestEvent) : Except GErr Unit × List Call :=
  if !(pr.action == prActionOpened) && !(pr.action == prActionEdited) then
    (Except.ok (), [])
  else
    let org := pr.repoOwner
    let repo := pr.repoName
    match gc.getIssueLabels org repo pr.number with
    | Except.error e =>
      (Except.error (("failed to list labels on PR #").data ++ natStr pr.number
          ++ (". err: ").data ++ e),
        [Call.getIssueLabels org repo pr.number])
    | Except.ok prLabels =>
      let t0 := [Call.getIssueLabels org repo pr.number]
      if determineReleaseNoteLabel pr.body = releaseNoteLabelNeeded then
        let mf := prMustFollowRelNoteProcess gc pr prLabels true
        if !mf.1 then
          let te := ensureNoRelNoteNeededLabel gc pr prLabels
          let cs := clearStaleComments gc pr prLabels none
          (cs.1, t0 ++ mf.2 ++ te ++ cs.2)
        else
          match gc.listIssueComments org repo pr.number with
          | Except.error e =>
            (Except.error (("failed to list comments on #").data ++ natStr pr.number
                ++ (". err: ").data ++ e),
              t0 ++ mf.2 ++ [Call.listIssueComments org repo pr.number])
          | Except.ok comments =>
            let labelToAdd :=
              if containsNoneCommand comments then releaseNoteNone
              else releaseNoteLabelNeeded
            let f := finishPR gc pr prLabels labelToAdd (some comments)
            (f.1, t0 ++ mf.2 ++ [Call.listIssueComments org repo pr.number] ++ f.2)
      else
        let f := finishPR gc pr prLabels (determineReleaseNoteLabel pr.body) none
        (f.1, t0 ++ f.2)

def deprecationNotice : Str :=
  ("the `/").data ++ releaseNote ++ ("` and `/").data ++ releaseNoteActionRequired
    ++ ("` commands have been deprecated.\nPlease edit the `release-note` block in the PR body text to include the release note. If the release note requires additional action include the string `action required` in the release note. For example:\n````\n```release-note\nSome release note with action required.\n```\n````").data

def authorizationNotice : Str :=
  ("you can only set the release note label to ").data ++ releaseNoteNone
    ++ (" if you are the PR author or an org member.").data

def blockNotice : Str :=
  ("you can only set the release note label to ").data ++ releaseNoteNone
    ++ (" if the release-note block in the PR body text is empty or \"none\".").data

/-- `handleComment` (source lines 95-160).  `ic.Issue.HasLabel` (declared
outside `src/`) compares label names with `strings.EqualFold`, i.e. the same
case-insensitive test as this file's `hasLabel`. -/
def handleComment (gc : GC) (ic : IssueCommentEvent) : Except GErr Unit × List Call :=
  if !ic.isPR || !(ic.action == issueCommentActionCreated) then (Except.ok (), [])
  else
    let org := ic.repoOwner
    let repo := ic.repoName
    let number := ic.issueNumber
    let depReply := formatICResponse ic.commentUserLogin deprecationNotice
    let depResult : Except GErr Unit × List Call :=
      (optToExcept (gc.createComment org repo number depReply),
        [Call.createComment org repo number depReply])
    if matchCommand releaseNoteCommand ic.commentBody then depResult
    else if matchCommand releaseNoteNoneCommand ic.commentBody then
      match gc.isMember org ic.commentUserLogin with
      | Except.error e => (Except.error e, [Call.isMember org ic.commentUserLogin])
      | Except.ok isMem =>
        if !isMem && !(isAuthor ic.issueUserLogin ic.commentUserLogin) then
          let reply := formatICResponse ic.commentUserLogin authorizationNotice
          (optToExcept (gc.createComment org repo number reply),
            [Call.isMember org ic.commentUserLogin,
              Call.createComment org repo number reply])
        else
          if determineReleaseNoteLabel ic.issueBody = releaseNote
              ∨ determineReleaseNoteLabel ic.issueBody = releaseNoteActionRequired then
            let reply := formatICResponse ic.commentUserLogin blockNotice
            (optToExcept (gc.createComment org repo number reply),
              [Call.isMember org ic.commentUserLogin,
                Call.createComment org repo number reply])
          else
            if hasLabel releaseNoteNone ic.issueLabels then
              let rm := removeOtherLabels (fun l => gc.removeLabel org repo number l)
                releaseNoteNone allRNLabels ic.issueLabels
              (optToExcept rm.1,
                [Call.isMember org ic.commentUserLogin]
                  ++ rm.2.map (Call.removeLabel org repo number))
            else
              match gc.addLabel org repo number releaseNoteNone with
              | some e =>
                (Except.error e,
                  [Call.isMember org ic.commentUserLogin,
                    Call.addLabel org repo number releaseNoteNone])
              | none =>
                let rm := removeOtherLabels (fun l => gc.removeLabel org repo number l)
                  releaseNoteNone allRNLabels ic.issueLabels
                (optToExcept rm.1,
                  [Call.isMember org ic.commentUserLogin,
                    Call.addLabel org repo number releaseNoteNone]
                    ++ rm.2.map (Call.removeLabel org repo number))
    else if matchCommand releaseNoteActionRequiredCommand ic.commentBody then depResult
    else (Except.ok (), [])

/- ── generic lemmas about the embedding ──────────────────────────────── -/

lemma containsSub_nil_right (s : Str) : containsSub s [] = true := by
  cases s with
  | nil => rfl
  | cons c rest => rfl

lemma containsSub_iff (s sub : Str) :
    containsSub s sub = true ↔ ∃ u v, s = u ++ sub ++ v := by
  constructor
  · intro h
    induction s with
    | nil =>
      have : sub.isPrefixOf ([] : Str) = true := h
      have hp := List.isPrefixOf_iff_prefix.mp this
      have : sub = [] := List.prefix_nil.mp hp
      exact ⟨[], [], by simp [this]⟩
    | cons c rest ih =>
      rw [containsSub, Bool.or_eq_true] at h
      cases h with
      | inl hpre =>
        obtain ⟨t, ht⟩ := List.isPrefixOf_iff_prefix.mp hpre
        exact ⟨[], t, by simp [← ht]⟩
      | inr hrest =>
        obtain ⟨u, v, huv⟩ := ih hrest
        exact ⟨c :: u, v, by simp [huv]⟩
  · rintro ⟨u, v, rfl⟩
    induction u with
    | nil =>
      simp only [List.nil_append]
      cases hsv : sub ++ v with
      | nil =>
        have hs : sub = [] := by
          rcases List.append_eq_nil.mp hsv with ⟨h1, _⟩
          exact h1
        rw [hs]
        exact containsSub_nil_right []
      | cons c rest =>
        rw [containsSub, Bool.or_eq_true]
        left
        exact List.isPrefixOf_iff_prefix.mpr (hsv ▸ List.prefix_append sub v)
    | cons c u2 ih =>
      rw [List.cons_append, List.cons_append, containsSub, Bool.or_eq_true]
      right
      simpa using ih

lemma joinSep_mem_split (sep : Str) (l : List Str) (x : Str) (hx : x ∈ l) :
    ∃ u v, joinSep sep l = u ++ x ++ v := by
  induction l with
  | nil => cases hx
  | cons a rest ih =>
    cases rest with
    | nil =>
      have : x = a := by simpa using hx
      subst this
      exact ⟨[], [], by simp [joinSep]⟩
    | cons b rest2 =>
      rcases List.mem_cons.mp hx with h | h
      · subst h
        exact ⟨[], sep ++ joinSep sep (b :: rest2), by simp [joinSep]⟩
      · obtain ⟨u, v, huv⟩ := ih h
        refine ⟨a ++ sep ++ u, v, ?_⟩
        simp [joinSep, huv]

/-- The label state of the tracked pull request after the issued
add-label/remove-label calls take effect (each call assumed to succeed);
removal matches case-insensitively, as `hasLabel` does. -/
def applyCall (ls : List GLabel) : Call → List GLabel
  | Call.addLabel _ _ _ l => ls ++ [⟨l⟩]
  | Call.removeLabel _ _ _ l =>
    ls.filter (fun g => !(toLowerStr g.name == toLowerStr l))
  | _ => ls

def applyCalls (ls : List GLabel) (t : List Call) : List GLabel :=
  t.foldl applyCall ls

/-- Calls that do not touch labels. -/
def labelNeutral : Call → Bool
  | Call.addLabel _ _ _ _ => false
  | Call.removeLabel _ _ _ _ => false
  | _ => true

lemma applyCalls_append (ls : List GLabel) (t1 t2 : List Call) :
    applyCalls ls (t1 ++ t2) = applyCalls (applyCalls ls t1) t2 := by
  simp [applyCalls, List.foldl_append]

lemma applyCalls_neutral (ls : List GLabel) (t : List Call)
    (h : ∀ a ∈ t, labelNeutral a = true) : applyCalls ls t = ls := by
  induction t generalizing ls with
  | nil => rfl
  | cons a rest ih =>
    have ha : labelNeutral a = true := h a (List.mem_cons_self a rest)
    have hstep : applyCall ls a = ls := by
      cases a <;> first | rfl | (exact absurd ha (by simp [labelNeutral]))
    simp only [applyCalls, List.foldl_cons, hstep]
    exact ih ls (fun b hb => h b (List.mem_cons_of_mem a hb))

/-- The comments posted in a call trace, in order. -/
def commentsOf (t : List Call) : List Str :=
  t.filterMap (fun a => match a with
    | Call.createComment _ _ _ body => some body
    | _ => none)

/- ── C3 and C10: the lineage policy ──────────────────────────────────── -/

lemma notelessParentsOf_eq_map (gc : GC) (org repo : Str) (parents : List Nat) :
    notelessParentsOf gc org repo parents
      = (notelessParentNums gc org repo parents).map (fun p => '#' :: natStr p) := by
  rw [notelessParentsOf, notelessParentNums, List.map_filterMap]
  apply List.filterMap_congr
  intro p _
  cases gc.getIssueLabels org repo p with
  | error e => rfl
  | ok parentLabels =>
    by_cases h : (!hasLabel releaseNote parentLabels
        && !hasLabel releaseNoteActionRequired parentLabels) = true
    · simp [h]
    · simp [Bool.not_eq_true] at h
      simp [h]

lemma commentsOf_append (t1 t2 : List Call) :
    commentsOf (t1 ++ t2) = commentsOf t1 ++ commentsOf t2 := by
  simp [commentsOf]

lemma commentsOf_fetchTrace (org repo : Str) (parents : List Nat) :
    commentsOf (parents.map (fun p => Call.getIssueLabels org repo p)) = [] := by
  rw [commentsOf, List.filterMap_map]
  apply List.filterMap_eq_nil_iff.mpr
  intro p _
  rfl

/-- C3: the lineage policy returns true immediately, with no external calls,
when the base branch is master; returns true when the body has no cherry-pick
parent references; returns false when every successfully checked parent
carries the release-note or the action-required label; and otherwise returns
true, posting exactly one advisory comment that names every noteless parent by
number if and only if commenting is enabled and the needed label is not
already present. -/
theorem prMustFollowRelNoteProcess_spec (gc : GC) (pr : PullRequestEvent)
    (prLabels : List GLabel) (mayComment : Bool) :
    (pr.baseRef = masterBranch →
      prMustFollowRelNoteProcess gc pr prLabels mayComment = (true, []))
    ∧ (getCherrypickParentPRNums pr.body = [] →
      (prMustFollowRelNoteProcess gc pr prLabels mayComment).1 = true)
    ∧ (pr.baseRef ≠ masterBranch →
      getCherrypickParentPRNums pr.body ≠ [] →
      (∀ p ∈ getCherrypickParentPRNums pr.body, ∀ ls,
        gc.getIssueLabels pr.repoOwner pr.repoName p = Except.ok ls →
        (hasLabel releaseNote ls || hasLabel releaseNoteActionRequired ls) = true) →
      (prMustFollowRelNoteProcess gc pr prLabels mayComment).1 = false)
    ∧ (pr.baseRef ≠ masterBranch →
      getCherrypickParentPRNums pr.body ≠ [] →
      (∃ p ∈ getCherrypickParentPRNums pr.body, ∃ ls,
        gc.getIssueLabels pr.repoOwner pr.repoName p = Except.ok ls
        ∧ (hasLabel releaseNote ls || hasLabel releaseNoteActionRequired ls) = false) →
      (prMustFollowRelNoteProcess gc pr prLabels mayComment).1 = true
      ∧ ((mayComment && !hasLabel releaseNoteLabelNeeded prLabels) = true →
        ∃ c, commentsOf (prMustFollowRelNoteProcess gc pr prLabels mayComment).2 = [c]
          ∧ ∀ q ∈ notelessParentNums gc pr.repoOwner pr.repoName
              (getCherrypickParentPRNums pr.body),
            containsSub c ('#' :: natStr q) = true)
      ∧ ((mayComment && !hasLabel releaseNoteLabelNeeded prLabels) = false →
        commentsOf (prMustFollowRelNoteProcess gc pr prLabels mayComment).2 = [])) := by
  refine ⟨?_, ?_, ?_, ?_⟩
  · intro h
    rw [prMustFollowRelNoteProcess, if_pos h]
  · intro h
    rw [prMustFollowRelNoteProcess]
    by_cases hb : pr.baseRef = masterBranch
    · rw [if_pos hb]
    · rw [if_neg hb]
      simp [h]
  · intro hb hp hall
    have hnil : notelessParentsOf gc pr.repoOwner pr.repoName
        (getCherrypickParentPRNums pr.body) = [] := by
      rw [notelessParentsOf]
      apply List.filterMap_eq_nil_iff.mpr
      intro p hpmem
      cases hfetch : gc.getIssueLabels pr.repoOwner pr.repoName p with
      | error e => rfl
      | ok ls =>
        have := hall p hpmem ls hfetch
        simp only [Bool.or_eq_true] at this
        simp only [hfetch]
        have hcond : (!hasLabel releaseNote ls
            && !hasLabel releaseNoteActionRequired ls) = false := by
          rcases this with h1 | h1 <;> simp [h1]
        rw [hcond]
        rfl
    rw [prMustFollowRelNoteProcess, if_neg hb, if_neg hp]
    simp [hnil]
  · intro hb hp hex
    have hne : notelessParentsOf gc pr.repoOwner pr.repoName
        (getCherrypickParentPRNums pr.body) ≠ [] := by
      obtain ⟨p, hpmem, ls, hfetch, hno⟩ := hex
      intro hcontra
      rw [notelessParentsOf, List.filterMap_eq_nil_iff] at hcontra
      have := hcontra p hpmem
      rw [hfetch] at this
      simp only [Bool.or_eq_false_iff] at hno
      obtain ⟨h1, h2⟩ := hno
      simp only [h1, h2] at this
      simp at this
    rw [prMustFollowRelNoteProcess, if_neg hb, if_neg hp]
    rw [if_neg hne]
    by_cases hc : (mayComment && !hasLabel releaseNoteLabelNeeded prLabels) = true
    · rw [if_pos hc]
      refine ⟨rfl, ?_, ?_⟩
      · intro _
        refine ⟨formatResponse pr.userLogin parentReleaseNoteBody
          (parentListSuffix (notelessParentsOf gc pr.repoOwner pr.repoName
            (getCherrypickParentPRNums pr.body))), ?_, ?_⟩
        · rw [commentsOf_append, commentsOf_fetchTrace, List.nil_append]
          rfl
        · intro q hq
          have hqs : ('#' :: natStr q) ∈ notelessParentsOf gc pr.repoOwner pr.repoName
              (getCherrypickParentPRNums pr.body) := by
            rw [notelessParentsOf_eq_map]
            exact List.mem_map_of_mem _ hq
          obtain ⟨u, v, huv⟩ := joinSep_mem_split ((", ").data) _ _ hqs
          apply (containsSub_iff _ _).mpr
          refine ⟨'@' :: pr.userLogin ++ (": ").data ++ parentReleaseNoteBody
            ++ ("\n\n<details>\n\n").data
            ++ (("The following parent PRs have neither the ").data ++ goQuote releaseNote
              ++ (" nor the ").data ++ goQuote releaseNoteActionRequired
              ++ (" labels: ").data) ++ u,
            v ++ (".").data ++ ("\n</details>").data, ?_⟩
          simp [formatResponse, parentListSuffix, huv]
      · intro hcf
        rw [hc] at hcf
        cases hcf
    · rw [if_neg hc]
      refine ⟨rfl, ?_, ?_⟩
      · intro hct
        rw [hct] at hc
        exact absurd rfl hc
      · intro _
        exact commentsOf_fetchTrace pr.repoOwner pr.repoName _

def c3GC : GC where
  isMember := fun _ _ => Except.ok true
  createComment := fun _ _ _ _ => none
  addLabel := fun _ _ _ _ => none
  removeLabel := fun _ _ _ _ => none
  getIssueLabels := fun _ _ n => if n = 1 then Except.ok [] else Except.ok [⟨releaseNote⟩]
  listIssueComments := fun _ _ _ => Except.ok []
  deleteStale := fun _ _ _ _ => none
  botName := Except.ok (("k8s-bot").data)

def c3PR : PullRequestEvent where
  action := prActionEdited
  number := 5
  body := ("Cherry pick of #1 on release-1.4.").data
  userLogin := ("alice").data
  baseRef := ("release-1.4").data
  repoOwner := ("kubernetes").data
  repoName := ("kubernetes").data

/-- Witness for C3 at a concrete environment: one noteless parent, commenting
enabled, needed label absent — the policy returns true and posts one comment
naming parent 1. -/
theorem prMustFollowRelNoteProcess_spec_witness :
    (prMustFollowRelNoteProcess c3GC c3PR [] true).1 = true
    ∧ (prMustFollowRelNoteProcess c3GC c3PR [] true).2.length = 2 := by
  have h := (prMustFollowRelNoteProcess_spec c3GC c3PR [] true).2.2.2
    (by decide) (by decide) ⟨1, by decide, [], rfl, by decide⟩
  exact ⟨h.1, by decide⟩

/-- C10: when the base branch is not master, the body references at least one
cherry-pick parent, and every per-parent label fetch fails, the policy treats
the pull request as exempt and returns false, without having verified any
parent. -/
theorem prMustFollow_allFetchesFail_false (gc : GC) (pr : PullRequestEvent)
    (prLabels : List GLabel) (mayComment : Bool)
    (hbase : pr.baseRef ≠ masterBranch)
    (hpar : getCherrypickParentPRNums pr.body ≠ [])
    (hfail : ∀ p ∈ getCherrypickParentPRNums pr.body, ∃ e,
      gc.getIssueLabels pr.repoOwner pr.repoName p = Except.error e) :
    (prMustFollowRelNoteProcess gc pr prLabels mayComment).1 = false := by
  have hnil : notelessParentsOf gc pr.repoOwner pr.repoName
      (getCherrypickParentPRNums pr.body) = [] := by
    rw [notelessParentsOf]
    apply List.filterMap_eq_nil_iff.mpr
    intro p hpmem
    obtain ⟨e, he⟩ := hfail p hpmem
    rw [he]
  rw [prMustFollowRelNoteProcess, if_neg hbase, if_neg hpar]
  simp [hnil]

def c10GC : GC where
  isMember := fun _ _ => Except.ok true
  createComment := fun _ _ _ _ => none
  addLabel := fun _ _ _ _ => none
  removeLabel := fun _ _ _ _ => none
  getIssueLabels := fun _ _ _ => Except.error (("503").data)
  listIssueComments := fun _ _ _ => Except.ok []
  deleteStale := fun _ _ _ _ => none
  botName := Except.ok (("k8s-bot").data)

/-- Witness for C10: both parent fetches fail, and the policy returns false. -/
theorem prMustFollow_allFetchesFail_false_witness :
    (prMustFollowRelNoteProcess c10GC c3PR [] true).1 = false := by
  exact prMustFollow_allFetchesFail_false c10GC c3PR [] true (by decide) (by decide)
    (fun p _ => ⟨("503").data, rfl⟩)

/- ── C5 and C9: stale-comment cleanup ────────────────────────────────── -/

lemma notMem_deleteStale_prMustFollow (gc : GC) (pr : PullRequestEvent)
    (pl : List GLabel) (c : Bool) (o r : Str) (n : Nat)
    (sup : Option (List IssueComment)) (eff : List IssueComment) (bot : Str) :
    Call.deleteStale o r n sup eff bot ∉ (prMustFollowRelNoteProcess gc pr pl c).2 := by
  simp only [prMustFollowRelNoteProcess]
  split
  · simp
  · split
    · simp
    · split
      · simp
      · split
        · simp
        · simp

lemma notMem_deleteStale_ensure (gc : GC) (pr : PullRequestEvent)
    (pl : List GLabel) (o r : Str) (n : Nat)
    (sup : Option (List IssueComment)) (eff : List IssueComment) (bot : Str) :
    Call.deleteStale o r n sup eff bot ∉ ensureNoRelNoteNeededLabel gc pr pl := by
  simp only [ensureNoRelNoteNeededLabel]
  split <;> split <;> simp

lemma clearStale_deleteStale_inv (gc : GC) (pr : PullRequestEvent)
    (pl : List GLabel) (comments : Option (List IssueComment)) (o r : Str) (n : Nat)
    (sup : Option (List IssueComment)) (eff : List IssueComment) (bot : Str)
    (h : Call.deleteStale o r n sup eff bot ∈ (clearStaleComments gc pr pl comments).2) :
    gc.botName = Except.ok bot
    ∧ ((comments = some eff ∧ sup = some eff)
      ∨ (comments = none ∧ sup = none
        ∧ gc.listIssueComments pr.repoOwner pr.repoName pr.number = Except.ok eff)) := by
  simp only [clearStaleComments] at h
  split at h
  · exact absurd h (notMem_deleteStale_prMustFollow gc pr pl false o r n sup eff bot)
  · rename_i hif
    cases hbn : gc.botName with
    | error e =>
      rw [hbn] at h
      rcases List.mem_append.mp h with h1 | h1
      · exact absurd h1 (notMem_deleteStale_prMustFollow gc pr pl false o r n sup eff bot)
      · simp at h1
    | ok b =>
      rw [hbn] at h
      simp only [deleteStaleCommentsClient] at h
      rcases List.mem_append.mp h with h1 | h1
      · rcases List.mem_append.mp h1 with h2 | h2
        · exact absurd h2 (notMem_deleteStale_prMustFollow gc pr pl false o r n sup eff bot)
        · simp at h2
      · cases comments with
        | some cs =>
          simp only [List.mem_singleton] at h1
          rw [Call.deleteStale.injEq] at h1
          obtain ⟨_, _, _, hsup, heff, hbot⟩ := h1
          subst hsup; subst heff; subst hbot
          exact ⟨rfl, Or.inl ⟨rfl, rfl⟩⟩
        | none =>
          cases hlc : gc.listIssueComments pr.repoOwner pr.repoName pr.number with
          | error e2 =>
            rw [hlc] at h1
            simp at h1
          | ok cs =>
            rw [hlc] at h1
            rcases List.mem_cons.mp h1 with h2 | h2
            · simp at h2
            · rw [List.mem_singleton, Call.deleteStale.injEq] at h2
              obtain ⟨_, _, _, hsup, heff, hbot⟩ := h2
              subst hsup; subst heff; subst hbot
              exact ⟨rfl, Or.inr ⟨rfl, rfl, rfl⟩⟩

lemma finishPR_deleteStale_inv (gc : GC) (pr : PullRequestEvent) (pl : List GLabel)
    (lta : Str) (comments : Option (List IssueComment)) (o r : Str) (n : Nat)
    (sup : Option (List IssueComment)) (eff : List IssueComment) (bot : Str)
    (h : Call.deleteStale o r n sup eff bot ∈ (finishPR gc pr pl lta comments).2) :
    gc.botName = Except.ok bot
    ∧ ((comments = some eff ∧ sup = some eff)
      ∨ (comments = none ∧ sup = none
        ∧ gc.listIssueComments pr.repoOwner pr.repoName pr.number = Except.ok eff)) := by
  have htA : Call.deleteStale o r n sup eff bot ∉
      (if lta = releaseNoteLabelNeeded then
        (if !hasLabel releaseNoteLabelNeeded pl then
          [Call.createComment pr.repoOwner pr.repoName pr.number
            (formatResponse pr.userLogin releaseNoteBody releaseNoteSuffix)]
        else [])
      else ensureNoRelNoteNeededLabel gc pr pl) := by
    split
    · split <;> simp
    · exact notMem_deleteStale_ensure gc pr pl o r n sup eff bot
  simp only [finishPR] at h
  split at h
  · rcases List.mem_append.mp h with h1 | h1
    · rcases List.mem_append.mp h1 with h2 | h2
      · exact absurd h2 htA
      · simp at h2
    · exact clearStale_deleteStale_inv gc pr pl comments o r n sup eff bot h1
  · split at h
    · rcases List.mem_append.mp h with h1 | h1
      · exact absurd h1 htA
      · simp at h1
    · rcases List.mem_append.mp h with h1 | h1
      · rcases List.mem_append.mp h1 with h2 | h2
        · rcases List.mem_append.mp h2 with h3 | h3
          · exact absurd h3 htA
          · simp at h3
        · simp at h2
      · exact clearStale_deleteStale_inv gc pr pl comments o r n sup eff bot h1

lemma handlePR_deleteStale_inv (gc : GC) (pr : PullRequestEvent) (o r : Str) (n : Nat)
    (sup : Option (List IssueComment)) (eff : List IssueComment) (bot : Str)
    (h : Call.deleteStale o r n sup eff bot ∈ (handlePR gc pr).2) :
    gc.botName = Except.ok bot
    ∧ gc.listIssueComments pr.repoOwner pr.repoName pr.number = Except.ok eff
    ∧ (sup = some eff ∨ sup = none) := by
  simp only [handlePR] at h
  split at h
  · simp at h
  · split at h
    · simp at h
    · rename_i prLabels hgl
      split at h
      · split at h
        · -- lineage-exempt early exit: clearStale with no comment set
          rcases List.mem_append.mp h with h1 | h1
          · rcases List.mem_append.mp h1 with h2 | h2
            · rcases List.mem_append.mp h2 with h3 | h3
              · simp at h3
              · exact absurd h3
                  (notMem_deleteStale_prMustFollow gc pr prLabels true o r n sup eff bot)
            · exact absurd h2 (notMem_deleteStale_ensure gc pr prLabels o r n sup eff bot)
          · obtain ⟨hbn, hcase⟩ :=
              clearStale_deleteStale_inv gc pr prLabels none o r n sup eff bot h1
            rcases hcase with ⟨hc, _⟩ | ⟨_, hsup, hlist⟩
            · cases hc
            · exact ⟨hbn, hlist, Or.inr hsup⟩
        · cases hlc : gc.listIssueComments pr.repoOwner pr.repoName pr.number with
          | error e =>
            rw [hlc] at h
            dsimp only at h
            rcases List.mem_append.mp h with h1 | h1
            · rcases List.mem_append.mp h1 with h2 | h2
              · simp at h2
              · exact absurd h2
                  (notMem_deleteStale_prMustFollow gc pr prLabels true o r n sup eff bot)
            · simp at h1
          | ok comments =>
            rw [hlc] at h
            dsimp only at h
            rcases List.mem_append.mp h with h1 | h1
            · rcases List.mem_append.mp h1 with h2 | h2
              · rcases List.mem_append.mp h2 with h3 | h3
                · simp at h3
                · exact absurd h3
                    (notMem_deleteStale_prMustFollow gc pr prLabels true o r n sup eff bot)
              · simp at h2
            · obtain ⟨hbn, hcase⟩ :=
                finishPR_deleteStale_inv gc pr prLabels _ (some comments) o r n sup eff bot h1
              rcases hcase with ⟨hc, hsup⟩ | ⟨hc, _⟩
              · rw [Option.some.injEq] at hc
                subst hc
                exact ⟨hbn, rfl, Or.inl hsup⟩
              · cases hc
      · rcases List.mem_append.mp h with h1 | h1
        · simp at h1
        · obtain ⟨hbn, hcase⟩ :=
            finishPR_deleteStale_inv gc pr prLabels _ none o r n sup eff bot h1
          rcases hcase with ⟨hc, _⟩ | ⟨_, hsup, hlist⟩
          · cases hc
          · exact ⟨hbn, hlist, Or.inr hsup⟩

/-- C5: whenever the pull-request path offers a comment set for stale-comment
deletion, that set is the comment list of the pull request as the external
service reports it — either the list already fetched earlier in the same run
(supplied to the deletion call), or a freshly fetched list when no fetch
happened earlier (no set was supplied); cleanup never operates on an empty
set merely because the earlier fetch step was skipped. -/
theorem clearStale_offered_comments (gc : GC) (pr : PullRequestEvent)
    (o r : Str) (n : Nat) (sup : Option (List IssueComment))
    (eff : List IssueComment) (bot : Str)
    (h : Call.deleteStale o r n sup eff bot ∈ (handlePR gc pr).2) :
    gc.listIssueComments pr.repoOwner pr.repoName pr.number = Except.ok eff
    ∧ (sup = some eff ∨ sup = none) := by
  obtain ⟨_, hlist, hsup⟩ := handlePR_deleteStale_inv gc pr o r n sup eff bot h
  exact ⟨hlist, hsup⟩

/-- C9: the stale-comment predicate supplied to the deletion interface is
`staleFn bot` for the bot account name the service reported, and it returns
true only for comments authored by that account whose body contains one of
the three fixed advisory templates. -/
theorem staleFn_only_bot_templates (gc : GC) (pr : PullRequestEvent)
    (o r : Str) (n : Nat) (sup : Option (List IssueComment))
    (eff : List IssueComment) (bot : Str)
    (h : Call.deleteStale o r n sup eff bot ∈ (handlePR gc pr).2) :
    gc.botName = Except.ok bot
    ∧ ∀ c : IssueComment, staleFn bot c = true →
      c.userLogin = bot
      ∧ (containsSub c.body releaseNoteBody = true
        ∨ containsSub c.body parentReleaseNoteBody = true
        ∨ containsSub c.body deprecatedReleaseNoteBody = true) := by
  obtain ⟨hbn, _, _⟩ := handlePR_deleteStale_inv gc pr o r n sup eff bot h
  refine ⟨hbn, ?_⟩
  intro c hc
  rw [staleFn, Bool.and_eq_true] at hc
  obtain ⟨hu, hb⟩ := hc
  refine ⟨by simpa using hu, ?_⟩
  rw [Bool.or_eq_true, Bool.or_eq_true] at hb
  rcases hb with (h1 | h2) | h3
  · exact Or.inl h1
  · exact Or.inr (Or.inl h2)
  · exact Or.inr (Or.inr h3)

def botNameStr : Str := ("k8s-ci-robot").data

def c5GC : GC where
  isMember := fun _ _ => Except.ok true
  createComment := fun _ _ _ _ => none
  addLabel := fun _ _ _ _ => none
  removeLabel := fun _ _ _ _ => none
  getIssueLabels := fun _ _ _ => Except.ok [⟨releaseNote⟩]
  listIssueComments := fun _ _ _ => Except.ok []
  deleteStale := fun _ _ _ _ => none
  botName := Except.ok botNameStr

def c5PR : PullRequestEvent where
  action := prActionOpened
  number := 7
  body := ("```release-note\nFoo\n```").data
  userLogin := ("alice").data
  baseRef := masterBranch
  repoOwner := ("kubernetes").data
  repoName := ("test-infra").data

/-- Witness for C5: in a run that never fetched comments before cleanup, the
deletion call received no supplied set and operated on the freshly fetched
comment list. -/
theorem clearStale_offered_comments_witness :
    c5GC.listIssueComments c5PR.repoOwner c5PR.repoName c5PR.number
      = Except.ok ([] : List IssueComment)
    ∧ ((none : Option (List IssueComment)) = some ([] : List IssueComment)
      ∨ (none : Option (List IssueComment)) = none) :=
  clearStale_offered_comments c5GC c5PR c5PR.repoOwner c5PR.repoName c5PR.number
    none [] botNameStr (by decide)

/-- Witness for C9 at a concrete run and a concrete stale comment. -/
theorem staleFn_only_bot_templates_witness :
    c5GC.botName = Except.ok botNameStr
    ∧ (IssueComment.mk botNameStr releaseNoteBody).userLogin = botNameStr := by
  have h := staleFn_only_bot_templates c5GC c5PR c5PR.repoOwner c5PR.repoName
    c5PR.number none [] botNameStr (by decide)
  exact ⟨h.1, (h.2 (IssueComment.mk botNameStr releaseNoteBody) (by decide)).1⟩

/- ── C6: aggregate removal errors ────────────────────────────────────── -/

lemma removeOtherLabelsLoop_snd (remover : Str → Option GErr) (label : Str)
    (cur : List GLabel) (ls : List Str) :
    (removeOtherLabelsLoop remover label cur ls).2
      = ls.filter (fun e => e != label && hasLabel e cur) := by
  induction ls with
  | nil => rfl
  | cons elem rest ih =>
    rw [removeOtherLabelsLoop]
    by_cases hc : (elem != label && hasLabel elem cur) = true
    · rw [if_pos hc]
      cases hr : remover elem with
      | none => simp [hr, List.filter_cons, hc, ih]
      | some e => simp [hr, List.filter_cons, hc, ih]
    · rw [if_neg hc]
      simp [List.filter_cons, hc, ih]

lemma removeOtherLabelsLoop_fst (remover : Str → Option GErr) (label : Str)
    (cur : List GLabel) (ls : List Str) :
    (removeOtherLabelsLoop remover label cur ls).1
      = (ls.filter (fun e => e != label && hasLabel e cur)).filterMap remover := by
  induction ls with
  | nil => rfl
  | cons elem rest ih =>
    rw [removeOtherLabelsLoop]
    by_cases hc : (elem != label && hasLabel elem cur) = true
    · rw [if_pos hc]
      cases hr : remover elem with
      | none => simp [hr, List.filter_cons, List.filterMap_cons, hc, ih]
      | some e => simp [hr, List.filter_cons, List.filterMap_cons, hc, ih]
    · rw [if_neg hc]
      simp [List.filter_cons, List.filterMap_cons, hc, ih]

lemma clearStale_result_ok (gc : GC) (pr : PullRequestEvent) (pl : List GLabel)
    (comments : Option (List IssueComment))
    (hBot : ∃ b, gc.botName = Except.ok b)
    (hList : ∀ o r n, ∃ cs, gc.listIssueComments o r n = Except.ok cs)
    (hDel : ∀ o r n cs, gc.deleteStale o r n cs = none) :
    (clearStaleComments gc pr pl comments).1 = Except.ok () := by
  simp only [clearStaleComments]
  split
  · rfl
  · obtain ⟨b, hb⟩ := hBot
    rw [hb]
    dsimp only
    simp only [deleteStaleCommentsClient]
    cases comments with
    | some cs => simp [hDel, optToExcept]
    | none =>
      obtain ⟨cs, hcs⟩ := hList pr.repoOwner pr.repoName pr.number
      rw [hcs]
      simp [hDel, optToExcept]

lemma finishPR_result_ok (gc : GC) (pr : PullRequestEvent) (pl : List GLabel)
    (lta : Str) (comments : Option (List IssueComment))
    (hAdd : ∀ o r n l, gc.addLabel o r n l = none)
    (hBot : ∃ b, gc.botName = Except.ok b)
    (hList : ∀ o r n, ∃ cs, gc.listIssueComments o r n = Except.ok cs)
    (hDel : ∀ o r n cs, gc.deleteStale o r n cs = none) :
    (finishPR gc pr pl lta comments).1 = Except.ok () := by
  simp only [finishPR]
  split
  · exact clearStale_result_ok gc pr pl comments hBot hList hDel
  · rw [hAdd]
    dsimp only
    exact clearStale_result_ok gc pr pl comments hBot hList hDel

/-- C6 counterexample: in the comment-triggered path the combined removal
error is RETURNED from the handler (source line 152), not logged: with one
failing removal, `handleComment` propagates the aggregate error. -/
theorem removal_error_returned_from_handleComment :
    (handleComment
      (GC.mk (fun _ _ => Except.ok true) (fun _ _ _ _ => none) (fun _ _ _ _ => none)
        (fun _ _ _ _ => some (("boom").data)) (fun _ _ _ => Except.ok [])
        (fun _ _ _ => Except.ok []) (fun _ _ _ _ => none) (Except.ok botNameStr))
      (IssueCommentEvent.mk true issueCommentActionCreated 3 [] (("alice").data)
        [GLabel.mk releaseNote, GLabel.mk releaseNoteNone]
        (("/release-note-none").data) (("alice").data)
        (("kubernetes").data) (("test-infra").data))).1
      = Except.error (combinedRemovalError [("boom").data]) := by
  decide

/-- C6 (amended): when removing multiple stale release-note-family labels,
every qualifying removal is attempted regardless of earlier failures; the
failures are collected into a single combined error that names their count
and each underlying cause; in the pull-request path that combined error is
only logged — removal failures never fail the handler — while in the
comment-triggered path the combined error is returned from the handler. -/
theorem removeOtherLabels_aggregation_spec :
    (∀ (remover : Str → Option GErr) (label : Str) (labelSet : List Str)
        (cur : List GLabel),
      (removeOtherLabels remover label labelSet cur).2
        = labelSet.filter (fun e => e != label && hasLabel e cur)
      ∧ (removeOtherLabels remover label labelSet cur).1
        = (if ((labelSet.filter (fun e => e != label && hasLabel e cur)).filterMap
              remover).length > 0
          then some (combinedRemovalError
            ((labelSet.filter (fun e => e != label && hasLabel e cur)).filterMap remover))
          else none))
    ∧ (∀ errs : List GErr,
      containsSub (combinedRemovalError errs) (natStr errs.length) = true
      ∧ ∀ e ∈ errs, containsSub (combinedRemovalError errs) e = true)
    ∧ (∀ (gc : GC) (pr : PullRequestEvent),
      (∀ o r n, ∃ ls, gc.getIssueLabels o r n = Except.ok ls) →
      (∀ o r n l, gc.addLabel o r n l = none) →
      (∀ o r n, ∃ cs, gc.listIssueComments o r n = Except.ok cs) →
      (∃ b, gc.botName = Except.ok b) →
      (∀ o r n cs, gc.deleteStale o r n cs = none) →
      (handlePR gc pr).1 = Except.ok ())
    ∧ (∀ (gc : GC) (ic : IssueCommentEvent) (m : Bool),
      ic.isPR = true →
      ic.action = issueCommentActionCreated →
      matchCommand releaseNoteCommand ic.commentBody = false →
      matchCommand releaseNoteNoneCommand ic.commentBody = true →
      gc.isMember ic.repoOwner ic.commentUserLogin = Except.ok m →
      (m || isAuthor ic.issueUserLogin ic.commentUserLogin) = true →
      ¬(determineReleaseNoteLabel ic.issueBody = releaseNote
        ∨ determineReleaseNoteLabel ic.issueBody = releaseNoteActionRequired) →
      (∀ o r n l, gc.addLabel o r n l = none) →
      (handleComment gc ic).1
        = optToExcept (removeOtherLabels
            (fun l => gc.removeLabel ic.repoOwner ic.repoName ic.issueNumber l)
            releaseNoteNone allRNLabels ic.issueLabels).1) := by
  refine ⟨?_, ?_, ?_, ?_⟩
  · intro remover label labelSet cur
    constructor
    · rw [removeOtherLabels]
      exact removeOtherLabelsLoop_snd remover label cur labelSet
    · rw [removeOtherLabels]
      rw [removeOtherLabelsLoop_fst remover label cur labelSet]
  · intro errs
    constructor
    · apply (containsSub_iff _ _).mpr
      refine ⟨("encountered ").data,
        (" errors setting labels: [").data ++ joinSep ([' ']) errs ++ ("]").data, ?_⟩
      simp [combinedRemovalError, List.append_assoc]
    · intro e he
      obtain ⟨u, v, huv⟩ := joinSep_mem_split ([' ']) errs e he
      apply (containsSub_iff _ _).mpr
      refine ⟨("encountered ").data ++ natStr errs.length
        ++ (" errors setting labels: [").data ++ u, v ++ ("]").data, ?_⟩
      simp [combinedRemovalError, huv, List.append_assoc]
  · intro gc pr hGet hAdd hList hBot hDel
    simp only [handlePR]
    split
    · rfl
    · obtain ⟨L0, hL0⟩ := hGet pr.repoOwner pr.repoName pr.number
      rw [hL0]
      dsimp only
      split
      · split
        · exact clearStale_result_ok gc pr L0 none hBot hList hDel
        · obtain ⟨cs, hcs⟩ := hList pr.repoOwner pr.repoName pr.number
          rw [hcs]
          dsimp only
          exact finishPR_result_ok gc pr L0 _ (some cs) hAdd hBot hList hDel
      · exact finishPR_result_ok gc pr L0 _ none hAdd hBot hList hDel
  · intro gc ic m h1 h2 h3 h4 hm hauth h5 hAdd
    have hne : ¬((!m && !(isAuthor ic.issueUserLogin ic.commentUserLogin)) = true) := by
      rw [← Bool.not_or, hauth]
      simp
    simp only [handleComment, h1, h2, h3, h4]
    rw [if_pos trivial, hm]
    dsimp only
    rw [if_neg hne, if_neg h5]
    by_cases hh : hasLabel releaseNoteNone ic.issueLabels = true
    · rw [if_pos hh, if_neg (by simp), if_neg (by simp)]
    · rw [if_neg hh, hAdd, if_neg (by simp), if_neg (by simp)]

/-- Witness for C6: the pull-request path succeeds under an all-successful
environment, and the comment path's result is exactly the aggregate removal
error value. -/
theorem removeOtherLabels_aggregation_spec_witness :
    (handlePR c5GC c5PR).1 = Except.ok ()
    ∧ (handleComment c5GC
        (IssueCommentEvent.mk true issueCommentActionCreated 3 [] (("alice").data)
          [GLabel.mk releaseNote] (("/release-note-none").data) (("alice").data)
          (("kubernetes").data) (("test-infra").data))).1
      = optToExcept (removeOtherLabels
          (fun l => c5GC.removeLabel (("kubernetes").data) (("test-infra").data) 3 l)
          releaseNoteNone allRNLabels [GLabel.mk releaseNote]).1 := by
  constructor
  · exact removeOtherLabels_aggregation_spec.2.2.1 c5GC c5PR
      (fun o r n => ⟨[GLabel.mk releaseNote], rfl⟩)
      (fun o r n l => rfl)
      (fun o r n => ⟨[], rfl⟩)
      ⟨botNameStr, rfl⟩
      (fun o r n cs => rfl)
  · exact removeOtherLabels_aggregation_spec.2.2.2 c5GC
      (IssueCommentEvent.mk true issueCommentActionCreated 3 [] (("alice").data)
        [GLabel.mk releaseNote] (("/release-note-none").data) (("alice").data)
        (("kubernetes").data) (("test-infra").data))
      true rfl rfl (by decide) (by decide) rfl (by decide) (by decide)
      (fun o r n l => rfl)

/- ── C8: the comment-triggered none-command path ─────────────────────── -/

/-- The label-changing calls of a trace, in order. -/
def labelCallsOf (t : List Call) : List Call :=
  t.filter (fun a => !labelNeutral a)

lemma labelCallsOf_removeMap (o r : Str) (n : Nat) (ls : List Str) :
    labelCallsOf (ls.map (Call.removeLabel o r n)) = ls.map (Call.removeLabel o r n) := by
  rw [labelCallsOf]
  apply List.filter_eq_self.mpr
  intro a ha
  obtain ⟨l, _, rfl⟩ := List.mem_map.mp ha
  rfl

lemma removeOtherLabels_snd (remover : Str → Option GErr) (label : Str)
    (labelSet : List Str) (cur : List GLabel) :
    (removeOtherLabels remover label labelSet cur).2
      = labelSet.filter (fun e => e != label && hasLabel e cur) := by
  rw [removeOtherLabels]
  exact removeOtherLabelsLoop_snd remover label cur labelSet

/-- C8: in the comment-triggered path, a none-command from a commenter who is
neither the PR author nor an org member yields exactly one rejection comment
and no label calls; a none-command from the PR author while the body's
release-note block classifies as needed (empty) or none adds the none label
(when absent) and removes every other release-note-family label present; and
a none-command while the body-derived outcome is standard or action-required
yields exactly one explanatory rejection comment and no label calls. -/
theorem handleComment_none_command_spec :
    (∀ (gc : GC) (ic : IssueCommentEvent),
      ic.isPR = true →
      ic.action = issueCommentActionCreated →
      matchCommand releaseNoteCommand ic.commentBody = false →
      matchCommand releaseNoteNoneCommand ic.commentBody = true →
      gc.isMember ic.repoOwner ic.commentUserLogin = Except.ok false →
      isAuthor ic.issueUserLogin ic.commentUserLogin = false →
      commentsOf (handleComment gc ic).2
        = [formatICResponse ic.commentUserLogin authorizationNotice]
      ∧ labelCallsOf (handleComment gc ic).2 = [])
    ∧ (∀ (gc : GC) (ic : IssueCommentEvent) (m : Bool),
      ic.isPR = true →
      ic.action = issueCommentActionCreated →
      matchCommand releaseNoteCommand ic.commentBody = false →
      matchCommand releaseNoteNoneCommand ic.commentBody = true →
      gc.isMember ic.repoOwner ic.commentUserLogin = Except.ok m →
      isAuthor ic.issueUserLogin ic.commentUserLogin = true →
      (determineReleaseNoteLabel ic.issueBody = releaseNoteLabelNeeded
        ∨ determineReleaseNoteLabel ic.issueBody = releaseNoteNone) →
      (∀ o r n l, gc.addLabel o r n l = none) →
      labelCallsOf (handleComment gc ic).2
        = (if hasLabel releaseNoteNone ic.issueLabels = true then []
          else [Call.addLabel ic.repoOwner ic.repoName ic.issueNumber releaseNoteNone])
          ++ (allRNLabels.filter
              (fun e => e != releaseNoteNone && hasLabel e ic.issueLabels)).map
            (Call.removeLabel ic.repoOwner ic.repoName ic.issueNumber))
    ∧ (∀ (gc : GC) (ic : IssueCommentEvent) (m : Bool),
      ic.isPR = true →
      ic.action = issueCommentActionCreated →
      matchCommand releaseNoteCommand ic.commentBody = false →
      matchCommand releaseNoteNoneCommand ic.commentBody = true →
      gc.isMember ic.repoOwner ic.commentUserLogin = Except.ok m →
      (m || isAuthor ic.issueUserLogin ic.commentUserLogin) = true →
      (determineReleaseNoteLabel ic.issueBody = releaseNote
        ∨ determineReleaseNoteLabel ic.issueBody = releaseNoteActionRequired) →
      commentsOf (handleComment gc ic).2
        = [formatICResponse ic.commentUserLogin blockNotice]
      ∧ labelCallsOf (handleComment gc ic).2 = []) := by
  refine ⟨?_, ?_, ?_⟩
  · intro gc ic h1 h2 h3 h4 hm hna
    simp only [handleComment, h1, h2, h3, h4]
    rw [if_pos trivial, hm]
    dsimp only
    rw [hna]
    rw [if_pos (show ((!false && !false) = true) by rfl)]
    rw [if_neg (by simp), if_neg (by simp)]
    constructor
    · rfl
    · rfl
  · intro gc ic m h1 h2 h3 h4 hm hauth hblock hAdd
    have hne : ¬((!m && !(isAuthor ic.issueUserLogin ic.commentUserLogin)) = true) := by
      rw [hauth]
      simp
    have h5 : ¬(determineReleaseNoteLabel ic.issueBody = releaseNote
        ∨ determineReleaseNoteLabel ic.issueBody = releaseNoteActionRequired) := by
      rcases hblock with hb | hb <;> rw [hb] <;> decide
    simp only [handleComment, h1, h2, h3, h4]
    rw [if_pos trivial, hm]
    dsimp only
    rw [if_neg hne, if_neg h5]
    by_cases hh : hasLabel releaseNoteNone ic.issueLabels = true
    · rw [if_pos hh, if_neg (by simp), if_neg (by simp), if_pos hh, List.nil_append]
      rw [← removeOtherLabels_snd
        (fun l => gc.removeLabel ic.repoOwner ic.repoName ic.issueNumber l)
        releaseNoteNone allRNLabels ic.issueLabels]
      rw [labelCallsOf, List.filter_append]
      have h1s : List.filter (fun a => !labelNeutral a)
          [Call.isMember ic.repoOwner ic.commentUserLogin] = [] := rfl
      rw [h1s, List.nil_append, ← labelCallsOf]
      exact labelCallsOf_removeMap ic.repoOwner ic.repoName ic.issueNumber _
    · rw [if_neg hh, hAdd, if_neg (by simp), if_neg (by simp), if_neg hh]
      dsimp only
      rw [← removeOtherLabels_snd
        (fun l => gc.removeLabel ic.repoOwner ic.repoName ic.issueNumber l)
        releaseNoteNone allRNLabels ic.issueLabels]
      rw [labelCallsOf, List.filter_append]
      have h2s : List.filter (fun a => !labelNeutral a)
          [Call.isMember ic.repoOwner ic.commentUserLogin,
            Call.addLabel ic.repoOwner ic.repoName ic.issueNumber releaseNoteNone]
          = [Call.addLabel ic.repoOwner ic.repoName ic.issueNumber releaseNoteNone] := rfl
      rw [h2s, ← labelCallsOf]
      rw [labelCallsOf_removeMap ic.repoOwner ic.repoName ic.issueNumber _]
  · intro gc ic m h1 h2 h3 h4 hm hauth hblock
    have hne : ¬((!m && !(isAuthor ic.issueUserLogin ic.commentUserLogin)) = true) := by
      rw [← Bool.not_or, hauth]
      simp
    simp only [handleComment, h1, h2, h3, h4]
    rw [if_pos trivial, hm]
    dsimp only
    rw [if_neg hne, if_pos hblock, if_neg (by simp), if_neg (by simp)]
    constructor
    · rfl
    · rfl

def gcNonMember : GC :=
  { c5GC with isMember := fun _ _ => Except.ok false }

def icAuthz : IssueCommentEvent where
  isPR := true
  action := issueCommentActionCreated
  issueNumber := 4
  issueBody := []
  issueUserLogin := ("alice").data
  issueLabels := [GLabel.mk releaseNote]
  commentBody := ("/release-note-none").data
  commentUserLogin := ("mallory").data
  repoOwner := ("kubernetes").data
  repoName := ("test-infra").data

def icNoneOk : IssueCommentEvent :=
  { icAuthz with commentUserLogin := ("alice").data }

def icBlocked : IssueCommentEvent :=
  { icNoneOk with issueBody := ("```release-note\nFoo\n```").data }

/-- Witness for C8: an unauthorized none-command changes no labels; an
authorized one with an empty body block adds the none label and removes the
other family label present; a none-command against a standard note yields the
explanatory rejection comment. -/
theorem handleComment_none_command_spec_witness :
    labelCallsOf (handleComment gcNonMember icAuthz).2 = []
    ∧ labelCallsOf (handleComment c5GC icNoneOk).2
      = [Call.addLabel (("kubernetes").data) (("test-infra").data) 4 releaseNoteNone,
        Call.removeLabel (("kubernetes").data) (("test-infra").data) 4 releaseNote]
    ∧ commentsOf (handleComment c5GC icBlocked).2
      = [formatICResponse (("alice").data) blockNotice] := by
  refine ⟨?_, ?_, ?_⟩
  · exact (handleComment_none_command_spec.1 gcNonMember icAuthz rfl rfl
      (by decide) (by decide) rfl (by decide)).2
  · have h := handleComment_none_command_spec.2.1 c5GC icNoneOk true rfl rfl
      (by decide) (by decide) rfl (by decide) (Or.inl (by decide)) (fun o r n l => rfl)
    rw [h]
    decide
  · exact (handleComment_none_command_spec.2.2 c5GC icBlocked true rfl rfl
      (by decide) (by decide) rfl (by decide) (Or.inl (by decide))).1

/- ── C4: the reconciler label-state invariant ────────────────────────── -/

/-- The label set left by `ensureNoRelNoteNeededLabel`: the needed and
deprecated labels stripped (case-insensitively), everything else kept. -/
def stripNeededLabels (ls : List GLabel) : List GLabel :=
  ls.filter (fun g => !(toLowerStr g.name == toLowerStr releaseNoteLabelNeeded)
    && !(toLowerStr g.name == toLowerStr deprecatedReleaseNoteLabelNeeded))

/-- How many of the release-note-family label names are present. -/
def familyLabelCount (ls : List GLabel) : Nat :=
  allRNLabels.countP (fun f => hasLabel f ls)

/-- Whether a `handlePR` run takes the lineage-exempt early exit (source
lines 196-200): the body classifies as needed and the lineage policy says the
process need not be followed. -/
def prTakesExemptExit (gc : GC) (pr : PullRequestEvent) (prLabels : List GLabel) : Bool :=
  (determineReleaseNoteLabel pr.body == releaseNoteLabelNeeded)
    && !(prMustFollowRelNoteProcess gc pr prLabels true).1

lemma allRNLabels_toLower_fixed : ∀ f ∈ allRNLabels, toLowerStr f = f := by
  decide

lemma hasLabel_iff (f : Str) (ls : List GLabel) :
    hasLabel f ls = true ↔ ∃ g ∈ ls, toLowerStr g.name = toLowerStr f := by
  simp [hasLabel, List.any_eq_true]

lemma hasLabel_false_iff (f : Str) (ls : List GLabel) :
    hasLabel f ls = false ↔ ∀ g ∈ ls, toLowerStr g.name ≠ toLowerStr f := by
  simp [hasLabel, List.any_eq_false]

lemma filter_id_of_hasLabel_false (f : Str) (ls : List GLabel)
    (h : hasLabel f ls = false) :
    ls.filter (fun g => !(toLowerStr g.name == toLowerStr f)) = ls := by
  apply List.filter_eq_self.mpr
  intro g hg
  have := (hasLabel_false_iff f ls).mp h g hg
  simp [this]

lemma filter_filter_bool (p q : GLabel → Bool) (l : List GLabel) :
    (l.filter p).filter q = l.filter (fun a => p a && q a) := by
  induction l with
  | nil => rfl
  | cons a rest ih =>
    cases hp : p a
    · simp [List.filter_cons, hp, ih]
    · cases hq : q a
      · simp [List.filter_cons, hp, hq, ih]
      · simp [List.filter_cons, hp, hq, ih]

lemma applyCalls_ensure (gc : GC) (pr : PullRequestEvent) (ls : List GLabel) :
    applyCalls ls (ensureNoRelNoteNeededLabel gc pr ls) = stripNeededLabels ls := by
  rw [ensureNoRelNoteNeededLabel, stripNeededLabels]
  by_cases h1 : hasLabel releaseNoteLabelNeeded ls = true
  · by_cases h2 : hasLabel deprecatedReleaseNoteLabelNeeded ls = true
    · rw [if_pos h1, if_pos h2]
      show ((ls.filter _).filter _) = _
      rw [filter_filter_bool]
    · rw [if_pos h1, if_neg h2]
      show (ls.filter _) = _
      apply List.filter_congr
      intro g hg
      have hd := (hasLabel_false_iff _ ls).mp (Bool.not_eq_true _ ▸ h2 : hasLabel deprecatedReleaseNoteLabelNeeded ls = false) g hg
      simp [hd]
  · by_cases h2 : hasLabel deprecatedReleaseNoteLabelNeeded ls = true
    · rw [if_neg h1, if_pos h2]
      show (ls.filter _) = _
      apply List.filter_congr
      intro g hg
      have hn := (hasLabel_false_iff _ ls).mp (Bool.not_eq_true _ ▸ h1 : hasLabel releaseNoteLabelNeeded ls = false) g hg
      simp [hn]
    · rw [if_neg h1, if_neg h2]
      show ls = _
      have e1 : hasLabel releaseNoteLabelNeeded ls = false := by
        cases hv : hasLabel releaseNoteLabelNeeded ls
        · rfl
        · exact absurd hv h1
      have e2 : hasLabel deprecatedReleaseNoteLabelNeeded ls = false := by
        cases hv : hasLabel deprecatedReleaseNoteLabelNeeded ls
        · rfl
        · exact absurd hv h2
      symm
      apply List.filter_eq_self.mpr
      intro g hg
      have hn := (hasLabel_false_iff _ ls).mp e1 g hg
      have hd := (hasLabel_false_iff _ ls).mp e2 g hg
      simp [hn, hd]

/-- Sequential case-insensitive removals. -/
def removeAllLabels (ls : List GLabel) (fs : List Str) : List GLabel :=
  fs.foldl (fun acc f => acc.filter (fun g => !(toLowerStr g.name == toLowerStr f))) ls

lemma applyCalls_removeMap (o r : Str) (n : Nat) (ls : List GLabel) (fs : List Str) :
    applyCalls ls (fs.map (Call.removeLabel o r n)) = removeAllLabels ls fs := by
  induction fs generalizing ls with
  | nil => rfl
  | cons f rest ih =>
    rw [List.map_cons]
    show applyCalls (applyCall ls (Call.removeLabel o r n f)) (rest.map (Call.removeLabel o r n)) = _
    rw [ih]
    rfl

lemma mem_removeAllLabels (g : GLabel) (fs : List Str) (ls : List GLabel) :
    g ∈ removeAllLabels ls fs
      ↔ g ∈ ls ∧ ∀ f ∈ fs, toLowerStr g.name ≠ toLowerStr f := by
  induction fs generalizing ls with
  | nil => simp [removeAllLabels]
  | cons f rest ih =>
    show g ∈ removeAllLabels
        (ls.filter (fun g2 => !(toLowerStr g2.name == toLowerStr f))) rest ↔ _
    rw [ih]
    simp only [List.mem_filter, List.forall_mem_cons]
    constructor
    · rintro ⟨⟨hmem, hok⟩, hrest⟩
      refine ⟨hmem, ?_, hrest⟩
      simpa using hok
    · rintro ⟨hmem, hf, hrest⟩
      refine ⟨⟨hmem, ?_⟩, hrest⟩
      simpa using hf

lemma prMustFollow_trace_neutral (gc : GC) (pr : PullRequestEvent)
    (pl : List GLabel) (c : Bool) :
    ∀ a ∈ (prMustFollowRelNoteProcess gc pr pl c).2, labelNeutral a = true := by
  intro a ha
  simp only [prMustFollowRelNoteProcess] at ha
  split at ha
  · simp at ha
  · split at ha
    · simp at ha
    · split at ha
      · obtain ⟨p, _, rfl⟩ := List.mem_map.mp ha
        rfl
      · split at ha
        · rcases List.mem_append.mp ha with h1 | h1
          · obtain ⟨p, _, rfl⟩ := List.mem_map.mp h1
            rfl
          · rw [List.mem_singleton] at h1
            subst h1
            rfl
        · obtain ⟨p, _, rfl⟩ := List.mem_map.mp ha
          rfl

lemma clearStale_trace_neutral (gc : GC) (pr : PullRequestEvent)
    (pl : List GLabel) (comments : Option (List IssueComment)) :
    ∀ a ∈ (clearStaleComments gc pr pl comments).2, labelNeutral a = true := by
  intro a ha
  simp only [clearStaleComments] at ha
  split at ha
  · exact prMustFollow_trace_neutral gc pr pl false a ha
  · cases hbn : gc.botName with
    | error e =>
      rw [hbn] at ha
      dsimp only at ha
      rcases List.mem_append.mp ha with h1 | h1
      · exact prMustFollow_trace_neutral gc pr pl false a h1
      · rw [List.mem_singleton] at h1
        subst h1
        rfl
    | ok b =>
      rw [hbn] at ha
      dsimp only at ha
      simp only [deleteStaleCommentsClient] at ha
      rcases List.mem_append.mp ha with h1 | h1
      · rcases List.mem_append.mp h1 with h2 | h2
        · exact prMustFollow_trace_neutral gc pr pl false a h2
        · rw [List.mem_singleton] at h2
          subst h2
          rfl
      · cases comments with
        | some cs =>
          rw [List.mem_singleton] at h1
          subst h1
          rfl
        | none =>
          cases hlc : gc.listIssueComments pr.repoOwner pr.repoName pr.number with
          | error e2 =>
            rw [hlc] at h1
            rw [List.mem_singleton] at h1
            subst h1
            rfl
          | ok cs =>
            rw [hlc] at h1
            rcases List.mem_cons.mp h1 with h2 | h2
            · subst h2
              rfl
            · rw [List.mem_singleton] at h2
              subst h2
              rfl

/-- The label state after the common tail of `handlePR`: strip the needed
labels unless the target is the needed label itself, append the target when
absent, then remove every other family label that was present. -/
def finalAfter (L0 : List GLabel) (lta : Str) : List GLabel :=
  removeAllLabels
    ((if lta = releaseNoteLabelNeeded then L0 else stripNeededLabels L0)
      ++ (if hasLabel lta L0 = true then [] else [GLabel.mk lta]))
    (allRNLabels.filter (fun e => e != lta && hasLabel e L0))

lemma finishPR_applyCalls (gc : GC) (pr : PullRequestEvent) (L0 : List GLabel)
    (lta : Str) (comments : Option (List IssueComment))
    (hAdd : ∀ o r n l, gc.addLabel o r n l = none) :
    applyCalls L0 (finishPR gc pr L0 lta comments).2 = finalAfter L0 lta := by
  have htA : applyCalls L0
      (if lta = releaseNoteLabelNeeded then
        (if !hasLabel releaseNoteLabelNeeded L0 then
          [Call.createComment pr.repoOwner pr.repoName pr.number
            (formatResponse pr.userLogin releaseNoteBody releaseNoteSuffix)]
        else [])
      else ensureNoRelNoteNeededLabel gc pr L0)
      = (if lta = releaseNoteLabelNeeded then L0 else stripNeededLabels L0) := by
    by_cases hn : lta = releaseNoteLabelNeeded
    · rw [if_pos hn, if_pos hn]
      apply applyCalls_neutral
      intro a ha
      split at ha
      · rw [List.mem_singleton] at ha
        subst ha
        rfl
      · simp at ha
    · rw [if_neg hn, if_neg hn]
      exact applyCalls_ensure gc pr L0
  simp only [finishPR]
  by_cases hp : hasLabel lta L0 = true
  · rw [if_pos hp]
    rw [applyCalls_append, applyCalls_append]
    rw [applyCalls_neutral _ _ (clearStale_trace_neutral gc pr L0 comments)]
    rw [removeOtherLabels_snd, applyCalls_removeMap]
    rw [finalAfter, if_pos hp, List.append_nil]
    rw [htA]
  · rw [if_neg hp, hAdd]
    dsimp only
    rw [applyCalls_append, applyCalls_append, applyCalls_append]
    rw [applyCalls_neutral _ _ (clearStale_trace_neutral gc pr L0 comments)]
    rw [removeOtherLabels_snd, applyCalls_removeMap]
    rw [finalAfter, if_neg hp]
    have hadd1 : applyCalls (applyCalls L0
        (if lta = releaseNoteLabelNeeded then
          (if !hasLabel releaseNoteLabelNeeded L0 then
            [Call.createComment pr.repoOwner pr.repoName pr.number
              (formatResponse pr.userLogin releaseNoteBody releaseNoteSuffix)]
          else [])
        else ensureNoRelNoteNeededLabel gc pr L0))
        [Call.addLabel pr.repoOwner pr.repoName pr.number lta]
        = (applyCalls L0
          (if lta = releaseNoteLabelNeeded then
            (if !hasLabel releaseNoteLabelNeeded L0 then
              [Call.createComment pr.repoOwner pr.repoName pr.number
                (formatResponse pr.userLogin releaseNoteBody releaseNoteSuffix)]
            else [])
          else ensureNoRelNoteNeededLabel gc pr L0)) ++ [GLabel.mk lta] := rfl
    rw [hadd1, htA]

lemma finalAfter_hasLabel (L0 : List GLabel) (lta : Str)
    (h4 : lta = releaseNoteLabelNeeded ∨ lta = releaseNoteNone
      ∨ lta = releaseNoteActionRequired ∨ lta = releaseNote) :
    ∀ f ∈ allRNLabels, hasLabel f (finalAfter L0 lta) = (f == lta) := by
  have hltaMem : lta ∈ allRNLabels := by
    rcases h4 with h | h | h | h <;> subst h <;> decide
  have hltaFix : toLowerStr lta = lta := allRNLabels_toLower_fixed lta hltaMem
  have hltaNdep : lta ≠ deprecatedReleaseNoteLabelNeeded := by
    rcases h4 with h | h | h | h <;> subst h <;> decide
  have tneed : toLowerStr releaseNoteLabelNeeded = releaseNoteLabelNeeded := by decide
  have tdep : toLowerStr deprecatedReleaseNoteLabelNeeded
      = deprecatedReleaseNoteLabelNeeded := by decide
  intro f hf
  have hfFix : toLowerStr f = f := allRNLabels_toLower_fixed f hf
  have survive : ∀ g : GLabel, toLowerStr g.name = lta →
      ∀ e ∈ allRNLabels.filter (fun e => e != lta && hasLabel e L0),
        toLowerStr g.name ≠ toLowerStr e := by
    intro g hgname e he
    rw [List.mem_filter, Bool.and_eq_true] at he
    obtain ⟨heMem, heNe, _⟩ := he
    rw [hgname, allRNLabels_toLower_fixed e heMem]
    intro hcontra
    exact (bne_iff_ne.mp heNe) hcontra.symm
  by_cases hfl : f = lta
  · subst hfl
    rw [beq_self_eq_true]
    apply (hasLabel_iff _ _).mpr
    by_cases hp : hasLabel f L0 = true
    · obtain ⟨g, hgmem, hgname⟩ := (hasLabel_iff f L0).mp hp
      rw [hfFix] at hgname
      refine ⟨g, ?_, by rw [hgname, hfFix]⟩
      apply (mem_removeAllLabels g _ _).mpr
      refine ⟨?_, survive g hgname⟩
      apply List.mem_append_left
      by_cases hn : f = releaseNoteLabelNeeded
      · rw [if_pos hn]
        exact hgmem
      · rw [if_neg hn]
        rw [stripNeededLabels, List.mem_filter]
        refine ⟨hgmem, ?_⟩
        rw [hgname, tneed, tdep]
        have b1 : (f == releaseNoteLabelNeeded) = false := by
          exact beq_eq_false_iff_ne.mpr hn
        have b2 : (f == deprecatedReleaseNoteLabelNeeded) = false := by
          exact beq_eq_false_iff_ne.mpr hltaNdep
        rw [b1, b2]
        rfl
    · refine ⟨GLabel.mk f, ?_, rfl⟩
      apply (mem_removeAllLabels _ _ _).mpr
      refine ⟨?_, survive (GLabel.mk f) (by exact hfFix)⟩
      apply List.mem_append_right
      rw [if_neg hp]
      exact List.mem_singleton.mpr rfl
  · rw [beq_eq_false_iff_ne.mpr hfl]
    apply (hasLabel_false_iff _ _).mpr
    intro g hg
    rw [hfFix]
    intro hcontra
    rw [finalAfter, mem_removeAllLabels] at hg
    obtain ⟨hgS2, hgAll⟩ := hg
    by_cases hfL0 : hasLabel f L0 = true
    · have hfAtt : f ∈ allRNLabels.filter (fun e => e != lta && hasLabel e L0) := by
        rw [List.mem_filter]
        refine ⟨hf, ?_⟩
        rw [Bool.and_eq_true]
        exact ⟨bne_iff_ne.mpr hfl, hfL0⟩
      have := hgAll f hfAtt
      rw [hfFix] at this
      exact this hcontra
    · rcases List.mem_append.mp hgS2 with hgl | hgr
      · have hgL0 : g ∈ L0 := by
          by_cases hn : lta = releaseNoteLabelNeeded
          · rw [if_pos hn] at hgl
            exact hgl
          · rw [if_neg hn] at hgl
            rw [stripNeededLabels, List.mem_filter] at hgl
            exact hgl.1
        have : hasLabel f L0 = true := by
          apply (hasLabel_iff f L0).mpr
          exact ⟨g, hgL0, by rw [hfFix]; exact hcontra⟩
        exact hfL0 this
      · have hgeq : g = GLabel.mk lta := by
          split at hgr
          · simp at hgr
          · rw [List.mem_singleton] at hgr
            exact hgr
        rw [hgeq] at hcontra
        have : toLowerStr lta = f := hcontra
        rw [hltaFix] at this
        exact hfl this.symm

lemma countP_beq_single (lta : Str)
    (h4 : lta = releaseNoteLabelNeeded ∨ lta = releaseNoteNone
      ∨ lta = releaseNoteActionRequired ∨ lta = releaseNote) :
    allRNLabels.countP (fun f => f == lta) = 1 := by
  rcases h4 with h | h | h | h <;> subst h <;> decide

lemma beq_dep_lta_false (lta : Str)
    (h4 : lta = releaseNoteLabelNeeded ∨ lta = releaseNoteNone
      ∨ lta = releaseNoteActionRequired ∨ lta = releaseNote) :
    (deprecatedReleaseNoteLabelNeeded == lta) = false := by
  rcases h4 with h | h | h | h <;> subst h <;> decide

lemma addLabel_notMem_prMustFollow (gc : GC) (pr : PullRequestEvent)
    (pl : List GLabel) (c : Bool) (o r : Str) (n : Nat) (l : Str) :
    Call.addLabel o r n l ∉ (prMustFollowRelNoteProcess gc pr pl c).2 := by
  simp only [prMustFollowRelNoteProcess]
  split
  · simp
  · split
    · simp
    · split
      · simp
      · split
        · simp
        · simp

lemma addLabel_notMem_ensure (gc : GC) (pr : PullRequestEvent)
    (pl : List GLabel) (o r : Str) (n : Nat) (l : Str) :
    Call.addLabel o r n l ∉ ensureNoRelNoteNeededLabel gc pr pl := by
  simp only [ensureNoRelNoteNeededLabel]
  split <;> split <;> simp

lemma addLabel_notMem_clearStale (gc : GC) (pr : PullRequestEvent)
    (pl : List GLabel) (comments : Option (List IssueComment))
    (o r : Str) (n : Nat) (l : Str) :
    Call.addLabel o r n l ∉ (clearStaleComments gc pr pl comments).2 := by
  intro h
  simp only [clearStaleComments] at h
  split at h
  · exact addLabel_notMem_prMustFollow gc pr pl false o r n l h
  · cases hbn : gc.botName with
    | error e =>
      rw [hbn] at h
      dsimp only at h
      rcases List.mem_append.mp h with h1 | h1
      · exact addLabel_notMem_prMustFollow gc pr pl false o r n l h1
      · simp at h1
    | ok b =>
      rw [hbn] at h
      dsimp only at h
      simp only [deleteStaleCommentsClient] at h
      rcases List.mem_append.mp h with h1 | h1
      · rcases List.mem_append.mp h1 with h2 | h2
        · exact addLabel_notMem_prMustFollow gc pr pl false o r n l h2
        · simp at h2
      · cases comments with
        | some cs => simp at h1
        | none =>
          cases hlc : gc.listIssueComments pr.repoOwner pr.repoName pr.number with
          | error e2 =>
            rw [hlc] at h1
            simp at h1
          | ok cs =>
            rw [hlc] at h1
            simp at h1

lemma addLabel_mem_finishPR (gc : GC) (pr : PullRequestEvent) (pl : List GLabel)
    (lta : Str) (comments : Option (List IssueComment))
    (o r : Str) (n : Nat) (l : Str)
    (h : Call.addLabel o r n l ∈ (finishPR gc pr pl lta comments).2) : l = lta := by
  have htA : Call.addLabel o r n l ∉
      (if lta = releaseNoteLabelNeeded then
        (if !hasLabel releaseNoteLabelNeeded pl then
          [Call.createComment pr.repoOwner pr.repoName pr.number
            (formatResponse pr.userLogin releaseNoteBody releaseNoteSuffix)]
        else [])
      else ensureNoRelNoteNeededLabel gc pr pl) := by
    split
    · split <;> simp
    · exact addLabel_notMem_ensure gc pr pl o r n l
  simp only [finishPR] at h
  split at h
  · rcases List.mem_append.mp h with h1 | h1
    · rcases List.mem_append.mp h1 with h2 | h2
      · exact absurd h2 htA
      · simp at h2
    · exact absurd h1 (addLabel_notMem_clearStale gc pr pl comments o r n l)
  · cases hga : gc.addLabel pr.repoOwner pr.repoName pr.number lta with
    | some e =>
      rw [hga] at h
      dsimp only at h
      rcases List.mem_append.mp h with h1 | h1
      · exact absurd h1 htA
      · rw [List.mem_singleton, Call.addLabel.injEq] at h1
        exact h1.2.2.2
    | none =>
      rw [hga] at h
      dsimp only at h
      rcases List.mem_append.mp h with h1 | h1
      · rcases List.mem_append.mp h1 with h2 | h2
        · rcases List.mem_append.mp h2 with h3 | h3
          · exact absurd h3 htA
          · rw [List.mem_singleton, Call.addLabel.injEq] at h3
            exact h3.2.2.2
        · simp at h2
      · exact absurd h1 (addLabel_notMem_clearStale gc pr pl comments o r n l)

lemma determine_mem4 (body : Str) :
    determineReleaseNoteLabel body = releaseNoteLabelNeeded
    ∨ determineReleaseNoteLabel body = releaseNoteNone
    ∨ determineReleaseNoteLabel body = releaseNoteActionRequired
    ∨ determineReleaseNoteLabel body = releaseNote := by
  rw [determineReleaseNoteLabel, classifyNote]
  split
  · exact Or.inl rfl
  · split
    · exact Or.inr (Or.inl rfl)
    · split
      · exact Or.inr (Or.inr (Or.inl rfl))
      · exact Or.inr (Or.inr (Or.inr rfl))

lemma addLabel_mem_handlePR (gc : GC) (pr : PullRequestEvent)
    (o r : Str) (n : Nat) (l : Str)
    (h : Call.addLabel o r n l ∈ (handlePR gc pr).2) :
    l = releaseNoteLabelNeeded ∨ l = releaseNoteNone
    ∨ l = releaseNoteActionRequired ∨ l = releaseNote := by
  simp only [handlePR] at h
  split at h
  · simp at h
  · split at h
    · simp at h
    · rename_i prLabels hgl
      split at h
      · split at h
        · rcases List.mem_append.mp h with h1 | h1
          · rcases List.mem_append.mp h1 with h2 | h2
            · rcases List.mem_append.mp h2 with h3 | h3
              · simp at h3
              · exact absurd h3 (addLabel_notMem_prMustFollow gc pr prLabels true o r n l)
            · exact absurd h2 (addLabel_notMem_ensure gc pr prLabels o r n l)
          · exact absurd h1 (addLabel_notMem_clearStale gc pr prLabels none o r n l)
        · cases hlc : gc.listIssueComments pr.repoOwner pr.repoName pr.number with
          | error e =>
            rw [hlc] at h
            dsimp only at h
            rcases List.mem_append.mp h with h1 | h1
            · rcases List.mem_append.mp h1 with h2 | h2
              · simp at h2
              · exact absurd h2 (addLabel_notMem_prMustFollow gc pr prLabels true o r n l)
            · simp at h1
          | ok comments =>
            rw [hlc] at h
            dsimp only at h
            rcases List.mem_append.mp h with h1 | h1
            · rcases List.mem_append.mp h1 with h2 | h2
              · rcases List.mem_append.mp h2 with h3 | h3
                · simp at h3
                · exact absurd h3 (addLabel_notMem_prMustFollow gc pr prLabels true o r n l)
              · simp at h2
            · have hl := addLabel_mem_finishPR gc pr prLabels _ (some comments) o r n l h1
              by_cases hcn : containsNoneCommand comments = true
              · rw [if_pos hcn] at hl
                exact Or.inr (Or.inl hl)
              · rw [if_neg hcn] at hl
                exact Or.inl hl
      · rcases List.mem_append.mp h with h1 | h1
        · simp at h1
        · have hl := addLabel_mem_finishPR gc pr prLabels _ none o r n l h1
          rw [hl]
          exact determine_mem4 pr.body

lemma addLabel_mem_handleComment (gc : GC) (ic : IssueCommentEvent)
    (o r : Str) (n : Nat) (l : Str)
    (h : Call.addLabel o r n l ∈ (handleComment gc ic).2) : l = releaseNoteNone := by
  simp only [handleComment] at h
  split at h
  · simp at h
  · split at h
    · simp at h
    · split at h
      · cases him : gc.isMember ic.repoOwner ic.commentUserLogin with
        | error e =>
          rw [him] at h
          dsimp only at h
          simp at h
        | ok m =>
          rw [him] at h
          dsimp only at h
          split at h
          · simp at h
          · split at h
            · simp at h
            · split at h
              · rcases List.mem_append.mp h with h1 | h1
                · simp at h1
                · simp at h1
              · cases hga : gc.addLabel ic.repoOwner ic.repoName ic.issueNumber releaseNoteNone with
                | some e =>
                  rw [hga] at h
                  dsimp only at h
                  rcases List.mem_cons.mp h with h1 | h1
                  · cases h1
                  · rw [List.mem_singleton, Call.addLabel.injEq] at h1
                    exact h1.2.2.2
                | none =>
                  rw [hga] at h
                  dsimp only at h
                  rcases List.mem_append.mp h with h1 | h1
                  · rcases List.mem_cons.mp h1 with h2 | h2
                    · cases h2
                    · rw [List.mem_singleton, Call.addLabel.injEq] at h2
                      exact h2.2.2.2
                  · simp at h1
      · split at h
        · simp at h
        · simp at h

/-- C4 (amended): after a successful pull-request-path run in which the label
additions and removals succeed, if the run does not take the lineage-exempt
early exit then exactly one release-note-family label is present and no
deprecated-alias label remains; the early-exit branch removes only the needed
and deprecated-alias labels, leaving any other family labels as they were (so
more than one may remain there); and neither event path ever adds the
deprecated alias label — the pull-request path only adds one of the four
current family labels, and the comment path only adds the none label. -/
theorem handlePR_label_invariant :
    (∀ (gc : GC) (pr : PullRequestEvent) (L0 : List GLabel),
      (pr.action = prActionOpened ∨ pr.action = prActionEdited) →
      gc.getIssueLabels pr.repoOwner pr.repoName pr.number = Except.ok L0 →
      (∀ o r n l, gc.addLabel o r n l = none) →
      (∀ o r n l, gc.removeLabel o r n l = none) →
      (handlePR gc pr).1 = Except.ok () →
      (prTakesExemptExit gc pr L0 = true →
        applyCalls L0 (handlePR gc pr).2 = stripNeededLabels L0)
      ∧ (prTakesExemptExit gc pr L0 = false →
        familyLabelCount (applyCalls L0 (handlePR gc pr).2) = 1
        ∧ hasLabel deprecatedReleaseNoteLabelNeeded
            (applyCalls L0 (handlePR gc pr).2) = false))
    ∧ (∀ (gc : GC) (pr : PullRequestEvent) (o r : Str) (n : Nat) (l : Str),
      Call.addLabel o r n l ∈ (handlePR gc pr).2 →
      l ≠ deprecatedReleaseNoteLabelNeeded)
    ∧ (∀ (gc : GC) (ic : IssueCommentEvent) (o r : Str) (n : Nat) (l : Str),
      Call.addLabel o r n l ∈ (handleComment gc ic).2 → l = releaseNoteNone) := by
  refine ⟨?_, ?_, ?_⟩
  · intro gc pr L0 hact hL hAdd hRem hok
    have hguard : ¬((!(pr.action == prActionOpened)
        && !(pr.action == prActionEdited)) = true) := by
      rcases hact with h | h <;> rw [h] <;> simp
    have h0 : ∀ base : List GLabel,
        applyCalls base [Call.getIssueLabels pr.repoOwner pr.repoName pr.number] = base :=
      fun base => rfl
    have hlst : ∀ base : List GLabel,
        applyCalls base [Call.listIssueComments pr.repoOwner pr.repoName pr.number] = base :=
      fun base => rfl
    simp only [handlePR] at hok ⊢
    rw [if_neg hguard] at hok ⊢
    rw [hL] at hok ⊢
    dsimp only at hok ⊢
    by_cases hD : determineReleaseNoteLabel pr.body = releaseNoteLabelNeeded
    · rw [if_pos hD] at hok ⊢
      cases hM : (prMustFollowRelNoteProcess gc pr L0 true).1 with
      | false =>
        rw [if_pos (show (!false) = true from rfl)]
        rw [hM] at hok
        rw [if_pos (show (!false) = true from rfl)] at hok
        have hflag : prTakesExemptExit gc pr L0 = true := by
          rw [prTakesExemptExit, hD, hM]
          decide
        dsimp only at hok ⊢
        constructor
        · intro _
          rw [applyCalls_append, applyCalls_append, applyCalls_append]
          rw [applyCalls_neutral _ _ (clearStale_trace_neutral gc pr L0 none)]
          rw [h0]
          rw [applyCalls_neutral _ _ (prMustFollow_trace_neutral gc pr L0 true)]
          exact applyCalls_ensure gc pr L0
        · intro hcontra
          rw [hflag] at hcontra
          cases hcontra
      | true =>
        rw [if_neg (show ¬((!true) = true) from by decide)]
        rw [hM] at hok
        rw [if_neg (show ¬((!true) = true) from by decide)] at hok
        have hflag : prTakesExemptExit gc pr L0 = false := by
          rw [prTakesExemptExit, hM]
          simp
        cases hlc : gc.listIssueComments pr.repoOwner pr.repoName pr.number with
        | error e =>
          rw [hlc] at hok
          dsimp only at hok
          cases hok
        | ok comments =>
          rw [hlc] at hok
          dsimp only at hok ⊢
          have h4 : (if containsNoneCommand comments = true then releaseNoteNone
                else releaseNoteLabelNeeded) = releaseNoteLabelNeeded
              ∨ (if containsNoneCommand comments = true then releaseNoteNone
                else releaseNoteLabelNeeded) = releaseNoteNone
              ∨ (if containsNoneCommand comments = true then releaseNoteNone
                else releaseNoteLabelNeeded) = releaseNoteActionRequired
              ∨ (if containsNoneCommand comments = true then releaseNoteNone
                else releaseNoteLabelNeeded) = releaseNote := by
            by_cases hcn : containsNoneCommand comments = true
            · rw [if_pos hcn]
              exact Or.inr (Or.inl rfl)
            · rw [if_neg hcn]
              exact Or.inl rfl
          constructor
          · intro hcontra
            rw [hflag] at hcontra
            cases hcontra
          · intro _
            rw [applyCalls_append, applyCalls_append, applyCalls_append]
            rw [h0, applyCalls_neutral _ _ (prMustFollow_trace_neutral gc pr L0 true),
              hlst]
            rw [finishPR_applyCalls gc pr L0 _ (some comments) hAdd]
            constructor
            · rw [familyLabelCount]
              rw [List.countP_congr (fun f hf => by
                rw [finalAfter_hasLabel L0 _ h4 f hf])]
              exact countP_beq_single _ h4
            · rw [finalAfter_hasLabel L0 _ h4 deprecatedReleaseNoteLabelNeeded (by decide)]
              exact beq_dep_lta_false _ h4
    · rw [if_neg hD] at hok ⊢
      dsimp only at hok ⊢
      have hflag : prTakesExemptExit gc pr L0 = false := by
        rw [prTakesExemptExit]
        rw [beq_eq_false_iff_ne.mpr hD]
        rfl
      have h4 := determine_mem4 pr.body
      constructor
      · intro hcontra
        rw [hflag] at hcontra
        cases hcontra
      · intro _
        rw [applyCalls_append, h0]
        rw [finishPR_applyCalls gc pr L0 _ none hAdd]
        constructor
        · rw [familyLabelCount]
          rw [List.countP_congr (fun f hf => by
            rw [finalAfter_hasLabel L0 _ h4 f hf])]
          exact countP_beq_single _ h4
        · rw [finalAfter_hasLabel L0 _ h4 deprecatedReleaseNoteLabelNeeded (by decide)]
          exact beq_dep_lta_false _ h4
  · intro gc pr o r n l h
    have h4 := addLabel_mem_handlePR gc pr o r n l h
    rcases h4 with h | h | h | h <;> subst h <;> decide
  · exact addLabel_mem_handleComment

def c4GC : GC where
  isMember := fun _ _ => Except.ok true
  createComment := fun _ _ _ _ => none
  addLabel := fun _ _ _ _ => none
  removeLabel := fun _ _ _ _ => none
  getIssueLabels := fun _ _ n =>
    if n = 1 then Except.ok [GLabel.mk releaseNote]
    else Except.ok [GLabel.mk releaseNote, GLabel.mk releaseNoteNone]
  listIssueComments := fun _ _ _ => Except.ok []
  deleteStale := fun _ _ _ _ => none
  botName := Except.ok botNameStr

def c4PR : PullRequestEvent where
  action := prActionEdited
  number := 5
  body := ("Cherry pick of #1 on release-1.4.").data
  userLogin := ("alice").data
  baseRef := ("release-1.4").data
  repoOwner := ("kubernetes").data
  repoName := ("kubernetes").data

/-- C4 counterexample: a successful pull-request-path run through the
lineage-exempt early exit, started with two terminal family labels on the PR,
ends with both still present — contradicting the claim that after any
successful run exactly one family label (or zero, in that branch) remains. -/
theorem label_invariant_counterexample :
    (handlePR c4GC c4PR).1 = Except.ok ()
    ∧ prTakesExemptExit c4GC c4PR
        [GLabel.mk releaseNote, GLabel.mk releaseNoteNone] = true
    ∧ familyLabelCount (applyCalls [GLabel.mk releaseNote, GLabel.mk releaseNoteNone]
        (handlePR c4GC c4PR).2) = 2 := by
  refine ⟨rfl, by decide, by decide⟩

/-- Witness for C4 at a concrete non-exempt run. -/
theorem handlePR_label_invariant_witness :
    familyLabelCount (applyCalls [GLabel.mk releaseNote] (handlePR c5GC c5PR).2) = 1
    ∧ hasLabel deprecatedReleaseNoteLabelNeeded
        (applyCalls [GLabel.mk releaseNote] (handlePR c5GC c5PR).2) = false := by
  exact (handlePR_label_invariant.1 c5GC c5PR [GLabel.mk releaseNote]
    (Or.inl rfl) rfl (fun o r n l => rfl) (fun o r n l => rfl) rfl).2 (by decide)
